import Mathlib

/-!
A shallow embedding of the GFF3 parsing/formatting library (`src/util.ts`,
`src/parse.ts`, `src/api.ts` and the accompanying web-stream API) in Lean 4,
together with theorems checking the natural-language specification against it.

Conventions of the embedding:
* JavaScript strings are modelled by Lean `String`/`List Char`; every input
  relevant here consists of Unicode scalar values, on which the JS semantics
  of the character classes used by the library coincide with the model.
* JavaScript objects used as string-keyed records or `Map`s are modelled as
  association lists that keep insertion order, where re-assigning an existing
  key keeps its position (`recSet`), and `delete`/`Map.delete` removes the
  entry (`recDelete`).  This matches JS enumeration-order semantics.
* Mutable feature objects shared between indices are modelled with two
  arenas: `lineArena` holds the feature-line records and `featArena` holds
  features (arrays of line ids).  `child_features`/`derived_features` hold
  feature ids, so mutation through one alias is visible through all, exactly
  as for shared JS object references.
-/

namespace GffJs

set_option autoImplicit false

/-! ### JS-style string-keyed records (objects and Maps) -/

/-- Lookup in a string-keyed record (JS `obj[k]` / `map.get(k)`). -/
def recGet {α : Type} : List (String × α) → String → Option α
  | [], _ => none
  | p :: t, k => if p.1 = k then some p.2 else recGet t k

/-- Assignment `obj[k] = v` / `map.set(k, v)`: updates an existing key in
place, otherwise appends the new key (JS insertion-order semantics). -/
def recSet {α : Type} : List (String × α) → String → α → List (String × α)
  | [], k, v => [(k, v)]
  | p :: t, k, v =>
    if p.1 = k then (k, v) :: t else p :: recSet t k v

/-- `delete obj[k]` / `map.delete(k)`: drop the entry with the given key,
keeping the order of the rest. -/
def recDelete {α : Type} : List (String × α) → String → List (String × α)
  | [], _ => []
  | p :: t, k => if p.1 = k then recDelete t k else p :: recDelete t k

/-- The keys of a record, in insertion order (JS `Object.keys` / `map.keys()`). -/
def recKeys {α : Type} (m : List (String × α)) : List String :=
  m.map (·.1)

/-- Replace the element at an index by a modified copy (in-place JS mutation
of an array element). Out-of-range indices leave the list unchanged. -/
def listModify {α : Type} : List α → Nat → (α → α) → List α
  | [], _, _ => []
  | x :: t, 0, f => f x :: t
  | x :: t, n + 1, f => x :: listModify t n f

/-! ### JS character classes and elementary string routines -/

/-- The JS regexp class `\s` (whitespace), by code point:
`\t \n \v \f \r`, space, and the Unicode space separators. -/
def isJsWhitespace (c : Char) : Bool :=
  decide ((9 ≤ c.toNat ∧ c.toNat ≤ 13)
    ∨ c.toNat = 32
    ∨ c.toNat = 0xA0 ∨ c.toNat = 0x1680
    ∨ (0x2000 ≤ c.toNat ∧ c.toNat ≤ 0x200A)
    ∨ c.toNat = 0x2028 ∨ c.toNat = 0x2029 ∨ c.toNat = 0x202F ∨ c.toNat = 0x205F
    ∨ c.toNat = 0x3000 ∨ c.toNat = 0xFEFF)

/-- The JS regexp `.` (any character except a line terminator). -/
def isJsDot (c : Char) : Bool :=
  decide (¬(c.toNat = 10 ∨ c.toNat = 13 ∨ c.toNat = 0x2028 ∨ c.toNat = 0x2029))

/-- JS `String.prototype.trim`. -/
def jsTrimList (cs : List Char) : List Char :=
  ((cs.dropWhile isJsWhitespace).reverse.dropWhile isJsWhitespace).reverse

/-- JS `String.prototype.trim` on `String`. -/
def jsTrim (s : String) : String :=
  ⟨jsTrimList s.data⟩

/-- Worker for `jsSplitChar`: accumulates the current segment (reversed). -/
def jsSplitCharGo (sep : Char) : List Char → List Char → List String
  | cur, [] => [⟨cur.reverse⟩]
  | cur, c :: rest =>
    if c = sep then ⟨cur.reverse⟩ :: jsSplitCharGo sep [] rest
    else jsSplitCharGo sep (c :: cur) rest

/-- JS `s.split(sep)` for a one-character separator: consecutive separators
and separators at either end produce empty segments, and the empty string
yields `[""]`. -/
def jsSplitChar (sep : Char) (s : String) : List String :=
  jsSplitCharGo sep [] s.data

/-- Strip a single trailing line break: JS `s.replace(/\r?\n$/, '')`. -/
def stripTrailingNewline (s : String) : String :=
  match s.data.reverse with
  | '\n' :: '\r' :: rest => ⟨rest.reverse⟩
  | '\n' :: rest => ⟨rest.reverse⟩
  | _ => s

/-! ### Hexadecimal helpers for the percent codec -/

/-- Value of a hex digit as used by `parseInt(seq, 16)` on `[0-9A-Fa-f]`. -/
def hexDigitVal? (c : Char) : Option Nat :=
  let n := c.toNat
  if 48 ≤ n ∧ n ≤ 57 then some (n - 48)        -- '0'..'9'
  else if 65 ≤ n ∧ n ≤ 70 then some (n - 55)   -- 'A'..'F'
  else if 97 ≤ n ∧ n ≤ 102 then some (n - 87)  -- 'a'..'f'
  else none

/-- Upper-case hex digit for `n < 16` (JS `toString(16).toUpperCase()`). -/
def hexDigitUpper (n : Nat) : Char :=
  if n < 10 then Char.ofNat (48 + n) else Char.ofNat (55 + n)

/-- JS `n.toString(16).toUpperCase()` for a natural number. -/
def natToHexUpper (n : Nat) : List Char :=
  if h : n < 16 then [hexDigitUpper n]
  else natToHexUpper (n / 16) ++ [hexDigitUpper (n % 16)]
  termination_by n
  decreasing_by
    exact Nat.div_lt_self (Nat.lt_of_lt_of_le (by norm_num) (Nat.le_of_not_lt h)) (by norm_num)

/-- JS `.padStart(2, '0')` on a character list. -/
def padStart2 (cs : List Char) : List Char :=
  if cs.length ≥ 2 then cs else List.replicate (2 - cs.length) '0' ++ cs

/-! ### The attribute codec (`src/util.ts`: `escape`, `escapeColumn`, `unescape`) -/

/-- The character class escaped by `escape`:
`[\n;\r\t=%&,\u0000-\u001f\u007f-ÿ]`
(codes: `\n`=10, `;`=59, `\r`=13, `\t`=9, `=`=61, `%`=37, `&`=38, `,`=44). -/
def escapeCharClass (c : Char) : Bool :=
  decide (c.toNat = 10 ∨ c.toNat = 59 ∨ c.toNat = 13 ∨ c.toNat = 9 ∨ c.toNat = 61
    ∨ c.toNat = 37 ∨ c.toNat = 38 ∨ c.toNat = 44
    ∨ c.toNat ≤ 0x1f ∨ (0x7f ≤ c.toNat ∧ c.toNat ≤ 0xff))

/-- The character class escaped by `escapeColumn`:
`[\n\r\t%\u0000-\u001f\u007f-ÿ]`. -/
def escapeColumnCharClass (c : Char) : Bool :=
  decide (c.toNat = 10 ∨ c.toNat = 13 ∨ c.toNat = 9 ∨ c.toNat = 37
    ∨ c.toNat ≤ 0x1f ∨ (0x7f ≤ c.toNat ∧ c.toNat ≤ 0xff))

/-- `_escape`: replace every character of class `p` by `%` followed by its
two-digit upper-case hex char code.  (The numeric-input coercion
`String(s)` of the source is the identity on the string inputs modelled
here.) -/
def escapeChars (p : Char → Bool) : List Char → List Char
  | [] => []
  | c :: cs =>
    (if p c then '%' :: padStart2 (natToHexUpper c.toNat) else [c]) ++ escapeChars p cs

/-- `escape(rawVal)` from `src/util.ts`. -/
def escape (s : String) : String :=
  ⟨escapeChars escapeCharClass s.data⟩

/-- `escapeColumn(rawVal)` from `src/util.ts`. -/
def escapeColumn (s : String) : String :=
  ⟨escapeChars escapeColumnCharClass s.data⟩

/-- `unescape(stringVal)`: replace every `%XX` hex sequence (scanning left to
right, as `replaceAll(/%([0-9A-Fa-f]{2})/g, ...)` does) by the character with
that char code; at a `%` that does not begin a `%XX` sequence the scan keeps
the `%` and resumes at the next character. -/
def unescapeChars : List Char → List Char
  | [] => []
  | c :: h₁ :: h₂ :: rest =>
    if c = '%' then
      match hexDigitVal? h₁, hexDigitVal? h₂ with
      | some a, some b => Char.ofNat (16 * a + b) :: unescapeChars rest
      | _, _ => c :: unescapeChars (h₁ :: h₂ :: rest)
    else c :: unescapeChars (h₁ :: h₂ :: rest)
  | c :: rest => c :: unescapeChars rest

/-- `unescape(stringVal)` from `src/util.ts`. -/
def unescape (s : String) : String :=
  ⟨unescapeChars s.data⟩

/-! ### Attribute parsing (`src/util.ts`: `parseAttributes`) -/

/-- `GFF3Attributes`: a string-keyed record of attribute values, in insertion
order. -/
abbrev GFF3Attributes := List (String × List String)

/-- `parseAttributes(attrString)` from `src/util.ts`:
strips one trailing line break, splits on `;`; each entry is split by
`a.split('=', 2)` (in JS the limit *truncates*, so only the segment between
the first and second `=` survives); an entry whose value is missing or empty
is skipped; the key is trimmed; the value is split on `,` with each piece
trimmed and unescaped, and appended to any previous values of that key. -/
def parseAttributes (attrString : String) : GFF3Attributes :=
  if attrString.length = 0 ∨ attrString = "." then []
  else
    (jsSplitChar ';' (stripTrailingNewline attrString)).foldl
      (fun attrs a =>
        let nv := jsSplitChar '=' a
        match nv.get? 1 with
        | none => attrs
        | some v =>
          if v.length = 0 then attrs
          else
            let key := jsTrim (nv.headD "")
            let vals := ((jsSplitChar ',' v).map jsTrim).map unescape
            recSet attrs key (((recGet attrs key).getD []) ++ vals))
      []

/-! ### JS numeric parsing (`parseInt`, `parseFloat`) -/

/-- A JS number produced by `parseInt`/`parseFloat`: `NaN`, an infinity, or a
finite value.  Finite values are kept as exact rationals; the rounding of
decimal literals to binary floating point is not modelled (no claim depends
on a numeric column value). -/
inductive JsNumber where
  | nan : JsNumber
  | inf (neg : Bool) : JsNumber
  | val (q : ℚ) : JsNumber
deriving DecidableEq, Repr

/-- Decimal digits `0`–`9`. -/
def isDigit (c : Char) : Bool :=
  decide (48 ≤ c.toNat ∧ c.toNat ≤ 57)

/-- Value of a digit string read in base 10. -/
def digitsToNat (ds : List Char) : Nat :=
  ds.foldl (fun acc c => acc * 10 + (c.toNat - 48)) 0

/-- JS `parseInt(s, 10)`: skip leading whitespace, optional sign, then the
longest prefix of decimal digits; `NaN` (modelled as `none`) if there is
none. -/
def jsParseInt (s : String) : Option Int :=
  let cs := s.data.dropWhile isJsWhitespace
  let (sign, cs) : Int × List Char :=
    match cs with
    | '-' :: r => (-1, r)
    | '+' :: r => (1, r)
    | r => (1, r)
  let digits := cs.takeWhile isDigit
  if digits.isEmpty then none
  else some (sign * (digitsToNat digits : Int))

/-- JS `parseFloat(s)`: skip leading whitespace, optional sign, then either
the keyword `Infinity` or a decimal literal `digits [. digits] [e|E [sign]
digits]`; `NaN` if no digits are found. -/
def jsParseFloat (s : String) : JsNumber :=
  let cs := s.data.dropWhile isJsWhitespace
  let (neg, cs) : Bool × List Char :=
    match cs with
    | '-' :: r => (true, r)
    | '+' :: r => (false, r)
    | r => (false, r)
  if ("Infinity".data.isPrefixOf cs) then JsNumber.inf neg
  else
    let intDigits := cs.takeWhile isDigit
    let cs := cs.drop intDigits.length
    let (fracDigits, cs) : List Char × List Char :=
      match cs with
      | '.' :: r => (r.takeWhile isDigit, r.drop (r.takeWhile isDigit).length)
      | r => ([], r)
    if intDigits.isEmpty ∧ fracDigits.isEmpty then JsNumber.nan
    else
      let mantissa : ℚ :=
        (digitsToNat intDigits : ℚ) + (digitsToNat fracDigits : ℚ) / ((10 : ℚ) ^ fracDigits.length)
      let exp : Int :=
        match cs with
        | e :: r =>
          if e = 'e' ∨ e = 'E' then
            let (esign, r) : Int × List Char :=
              match r with
              | '-' :: r' => (-1, r')
              | '+' :: r' => (1, r')
              | r' => (1, r')
            let eDigits := r.takeWhile isDigit
            if eDigits.isEmpty then 0 else esign * (digitsToNat eDigits : Int)
          else 0
        | [] => 0
      let value : ℚ := (if neg then -1 else 1) * mantissa * (10 : ℚ) ^ exp
      JsNumber.val value

/-! ### Feature-line parsing (`src/util.ts`: `parseFeature`) -/

/-- A nullable numeric column (`start`/`end`): `none` models JS `null`
(column was `.` or empty), `some none` models `NaN`. -/
abbrev NullableInt := Option (Option Int)

/-- `GFF3FeatureLine`: one parsed tab-delimited record.  `none` in a string
field models JS `null` (and the `undefined` produced for a missing column,
which the library treats the same way everywhere it is consumed).  The
`end` field is named `end_` because `end` is a Lean keyword. -/
structure GFF3FeatureLine where
  seq_id : Option String
  source : Option String
  type : Option String
  start : NullableInt
  end_ : NullableInt
  score : Option JsNumber
  strand : Option String
  phase : Option String
  attributes : Option GFF3Attributes
deriving DecidableEq, Repr

/-- `parseFeature(line)` from `src/util.ts`: split the line on tabs, replace
`.`/empty columns by `null`, unescape the `seq_id`/`source`/`type` columns,
parse `start`/`end` with `parseInt` and `score` with `parseFloat`, and parse
the attribute column.  A missing numeric column behaves as in JS
(`parseInt(undefined)`/`parseFloat(undefined)` produce `NaN`); a missing
attribute column produces an empty attribute record
(`parseAttributes(undefined)` returns `{}`). -/
def parseFeature (line : String) : GFF3FeatureLine :=
  let f : List (Option String) :=
    (jsSplitChar '\t' line).map fun a => if a = "." ∨ a = "" then none else some a
  let col : Nat → Option String := fun i => (f.get? i).getD none
  { seq_id := (col 0).map unescape
    source := (col 1).map unescape
    type := (col 2).map unescape
    start :=
      match f.get? 3 with
      | some none => none
      | some (some s) => some (jsParseInt s)
      | none => some none
    end_ :=
      match f.get? 4 with
      | some none => none
      | some (some s) => some (jsParseInt s)
      | none => some none
    score :=
      match f.get? 5 with
      | some none => none
      | some (some s) => some (jsParseFloat s)
      | none => some JsNumber.nan
    strand := col 6
    phase := col 7
    attributes :=
      match f.get? 8 with
      | some none => none
      | some (some s) => some (parseAttributes s)
      | none => some [] }

/-! ### Directive parsing (`src/util.ts`: `parseDirective`) -/

/-- `GFF3Directive` with the extra fields of its `sequence-region` and
`genome-build` specializations flattened in (they are `none` when not
applicable, mirroring the TS union of record types). -/
structure GFF3Directive where
  directive : String
  value : Option String := none
  seq_id : Option String := none
  start : Option String := none
  end_ : Option String := none
  source : Option String := none
  buildName : Option String := none
deriving DecidableEq, Repr

/-- Worker for `jsSplitWs`: accumulates the current segment (reversed) while
scanning. -/
def jsSplitWsGo (cur : List Char) (cs : List Char) : List String :=
  match cs with
  | [] => [⟨cur.reverse⟩]
  | c :: rest =>
    if isJsWhitespace c then
      ⟨cur.reverse⟩ :: jsSplitWsGo [] (rest.dropWhile isJsWhitespace)
    else
      jsSplitWsGo (c :: cur) rest
  termination_by cs.length
  decreasing_by
    · exact Nat.lt_succ_of_le (List.dropWhile_sublist _ |>.length_le)
    · exact Nat.lt_succ_self _

/-- JS `contents.split(/\s+/)`: split on maximal whitespace runs; a leading
or trailing run produces an empty first or last element, and the empty
string yields `[""]`. -/
def jsSplitWs (s : String) : List String :=
  jsSplitWsGo [] s.data

/-- Keep only the decimal digits of a string: JS `s.replaceAll(/\D/g, '')`. -/
def keepDigits (s : String) : String :=
  ⟨s.data.filter isDigit⟩

/-- `parseDirective(line)` from `src/util.ts`: match
`^\s*##\s*(\S+)\s*(.*)`; build `{directive, value?}` and add the extra
parsed fields for `sequence-region` (via `split(/\s+/, 3)` and digit
filtering) and `genome-build` (via `split(/\s+/, 2)`). -/
def parseDirective (line : String) : Option GFF3Directive :=
  let cs := line.data.dropWhile isJsWhitespace
  match cs with
  | '#' :: '#' :: rest =>
    let rest := rest.dropWhile isJsWhitespace
    let name : List Char := rest.takeWhile fun c => ¬ isJsWhitespace c
    if name.isEmpty then none
    else
      let afterName := (rest.drop name.length).dropWhile isJsWhitespace
      let contents0 : String := ⟨afterName.takeWhile isJsDot⟩
      let nameS : String := ⟨name⟩
      let contents :=
        if contents0.length ≠ 0 then stripTrailingNewline contents0 else contents0
      let value : Option String :=
        if contents0.length ≠ 0 then some contents else none
      if nameS = "sequence-region" then
        let c := (jsSplitWs contents).take 3
        some { directive := nameS, value := value,
               seq_id := c.get? 0,
               start := (c.get? 1).map keepDigits,
               end_ := (c.get? 2).map keepDigits }
      else if nameS = "genome-build" then
        let c := (jsSplitWs contents).take 2
        some { directive := nameS, value := value,
               source := c.get? 0, buildName := c.get? 1 }
      else
        some { directive := nameS, value := value }
  | _ => none

/-! ### Engine data model (`src/parse.ts`)

Mutable shared feature objects are modelled with two arenas:
`lineArena : List LineRec` holds the `GFF3FeatureLineWithRefs` objects and
`featArena : List (List Nat)` holds the features (JS arrays of line
references).  `child_features`/`derived_features` store feature ids, so a
mutation through one alias is seen through every alias, exactly as for the
shared JS references.  Arena ids are allocation order; arenas only grow. -/

/-- The orphan-map entry type `References` of `src/parse.ts` (feature ids
that reference a not-yet-seen target via `Parent` / `Derives_from`). -/
structure References where
  Parent : List Nat
  Derives_from : List Nat
deriving DecidableEq, Repr

/-- A `GFF3FeatureLineWithRefs`: the parsed line plus child/derived links. -/
structure LineRec where
  data : GFF3FeatureLine
  child_features : List Nat
  derived_features : List Nat
deriving DecidableEq, Repr

/-- `GFF3Sequence` from `src/util.ts`. -/
structure GFF3Sequence where
  id : String
  description : Option String := none
  sequence : String
deriving DecidableEq, Repr

/-- The `FASTAParser` of `src/parse.ts`: its current sequence plus the
sequence callback captured at construction time. -/
structure FASTAState where
  currentSequence : Option GFF3Sequence
  hasSeqCallback : Bool
deriving DecidableEq, Repr

/-- The `ParseCallbacks` record: we model only whether each callback is
present; the sink itself is modelled by the emitted-item list. -/
structure ParseCallbacks where
  featureCallback : Bool
  commentCallback : Bool
  errorCallback : Bool
  directiveCallback : Bool
  sequenceCallback : Bool
deriving DecidableEq, Repr

/-- Callbacks with every sink present. -/
def allCallbacks : ParseCallbacks :=
  ⟨true, true, true, true, true⟩

/-- The arenas at the moment an item is emitted; a sink receiving a feature
receives a reference into this heap. -/
structure ArenaSnapshot where
  lineArena : List LineRec
  featArena : List (List Nat)
deriving DecidableEq, Repr

/-- An item delivered to one of the callbacks. -/
inductive Emitted where
  | feature (snapshot : ArenaSnapshot) (fid : Nat)
  | directive (d : GFF3Directive)
  | comment (text : String)
  | sequence (s : GFF3Sequence)
  | error (msg : String)
deriving DecidableEq, Repr

/-- The `completedReferences` index: id ↦ (`"Parent,<toId>"` /
`"Derives_from,<toId>"` ↦ flag). -/
abbrev CompletedMap := List (String × List (String × Bool))

/-- The mutable state of a `Parser` instance (`src/parse.ts`).  `bufferSize`
is `none` for `Infinity`.  `diverged` is set where the JS code would fail to
terminate (buffer-eviction loop with an empty queue, or unbounded recursion
through a cyclic reference graph); it is never set on the inputs of any
claim. -/
structure ParserState where
  bufferSize : Option Nat
  disableDerivesFromReferences : Bool
  fastaParser : Option FASTAState
  eof : Bool
  lineNumber : Nat
  lineArena : List LineRec
  featArena : List (List Nat)
  underConstructionTopLevel : List Nat
  underConstructionById : List (String × Nat)
  completedReferences : CompletedMap
  underConstructionOrphans : List (String × References)
  diverged : Bool
deriving DecidableEq, Repr

/-- The state of the `Parser` produced by the constructor: `bufferSize`
defaults to 50000 when the argument is undefined. -/
def initialParserState (bufferSize : Option Nat := some 50000)
    (disableDerivesFromReferences : Bool := false) : ParserState where
  bufferSize := bufferSize
  disableDerivesFromReferences := disableDerivesFromReferences
  fastaParser := none
  eof := false
  lineNumber := 0
  lineArena := []
  featArena := []
  underConstructionTopLevel := []
  underConstructionById := []
  completedReferences := []
  underConstructionOrphans := []
  diverged := false

/-- Result of one engine operation: the new state, the items delivered to
the callbacks (in order), and the message of a thrown `Error`, if any.  When
an exception is thrown, `state` records the mutations already performed
before the `throw`, as for JS objects mutated in place. -/
structure StepOut where
  state : ParserState
  emitted : List Emitted
  thrown : Option String
deriving DecidableEq, Repr

/-! ### Engine helpers -/

/-- `featureLine.attributes?.ID || []`. -/
def featureLineIds (f : GFF3FeatureLine) : List String :=
  (f.attributes.bind fun m => recGet m "ID").getD []

/-- `featureLine.attributes?.Parent || []`. -/
def featureLineParents (f : GFF3FeatureLine) : List String :=
  (f.attributes.bind fun m => recGet m "Parent").getD []

/-- `featureLine.attributes?.Derives_from || []`. -/
def featureLineDerivesRaw (f : GFF3FeatureLine) : List String :=
  (f.attributes.bind fun m => recGet m "Derives_from").getD []

/-- `${type}` for a nullable string (JS prints `null` for `null`). -/
def typeToString (t : Option String) : String :=
  t.getD "null"

/-- The message of the type-mismatch `parseError` in `bufferLine`. -/
def mismatchMessage (id : String) (newType oldType : Option String) : String :=
  "multi-line feature \"" ++ id ++ "\" has inconsistent types: \"" ++
    typeToString newType ++ "\", \"" ++ typeToString oldType ++ "\""

/-- The message of the referential-integrity `Error` thrown by
`emitAllUnderConstructionFeatures`. -/
def refErrorMessage (ids : List String) : String :=
  "some features reference other features that do not exist in the file (or in the same '###' scope). "
    ++ String.intercalate "," ids

/-- `parseError(message)`: set `eof` and invoke the error callback with the
line number prepended. -/
def parseError (cbs : ParseCallbacks) (msg : String) (st : ParserState) :
    ParserState × List Emitted :=
  ({ st with eof := true },
   if cbs.errorCallback then [Emitted.error (toString st.lineNumber ++ ": " ++ msg)] else [])

/-- `postSet(obj, slot1, slot2)`: record `obj[slot1][slot2] = true`
(creating the sub-record if needed) and return the previous value. -/
def postSet (obj : CompletedMap) (slot1 slot2 : String) : CompletedMap × Bool :=
  let sub := (recGet obj slot1).getD []
  let prev := (recGet sub slot2).getD false
  (recSet obj slot1 (recSet sub slot2 true), prev)

/-- Does the top-level queue (of the given length) overflow the buffer
bound?  (`underConstructionTopLevel.length + additionalItemCount >
bufferSize`; `Infinity` never overflows.) -/
def bufOver : Option Nat → Nat → Bool
  | none, _ => false
  | some b, n => decide (b < n)

/-- The `_unbufferItem` closure of `enforceBufferSizeLimit`: recursively
purge an evicted feature and its child/derived subtrees from the by-id map
and the completed-reference set (only features whose first location has a
non-empty first `ID` are purged).  The fuel bounds the recursion depth,
which on any acyclic reference graph is at most the number of features; on a
cyclic graph the JS recursion would not terminate, which the returned flag
records. -/
def unbufferItem (lineArena : List LineRec) (featArena : List (List Nat)) :
    Nat → Nat → List (String × Nat) → CompletedMap →
    List (String × Nat) × CompletedMap × Bool
  | 0, _, byId, comp => (byId, comp, true)
  | fuel + 1, fid, byId, comp =>
    let lids := (featArena.get? fid).getD []
    match lids.head? with
    | none => (byId, comp, false)
    | some lid0 =>
    match lineArena.get? lid0 with
    | none => (byId, comp, false)
    | some rec0 =>
      let ids := featureLineIds rec0.data
      match ids.head? with
      | none => (byId, comp, false)
      | some firstId =>
        if firstId = "" then (byId, comp, false)
        else
          let byId := ids.foldl recDelete byId
          let comp := ids.foldl recDelete comp
          lids.foldl
            (fun acc lid =>
              match lineArena.get? lid with
              | none => acc
              | some lrec =>
                let acc := lrec.child_features.foldl
                  (fun acc c =>
                    let r := unbufferItem lineArena featArena fuel c acc.1 acc.2.1
                    (r.1, r.2.1, acc.2.2 || r.2.2)) acc
                lrec.derived_features.foldl
                  (fun acc d =>
                    let r := unbufferItem lineArena featArena fuel d acc.1 acc.2.1
                    (r.1, r.2.1, acc.2.2 || r.2.2)) acc)
            (byId, comp, false)

/-- The eviction loop of `enforceBufferSizeLimit`: while the queue (plus the
items about to be inserted) overflows, shift the oldest top-level feature,
emit it, and purge it.  The fuel is the initial queue length, which the loop
never exceeds; a JS infinite loop (overflow with an empty queue, possible
only for `bufferSize < additionalItemCount`) sets `diverged`. -/
def enforceGo (cbs : ParseCallbacks) (add : Nat) :
    Nat → ParserState → List Emitted → ParserState × List Emitted
  | fuel, st, acc =>
    if bufOver st.bufferSize (st.underConstructionTopLevel.length + add) then
      match st.underConstructionTopLevel with
      | [] => ({ st with diverged := true }, acc)
      | fid :: rest =>
        match fuel with
        | 0 => ({ st with diverged := true }, acc)  -- unreachable from the call sites
        | fuel + 1 =>
          let st1 := { st with underConstructionTopLevel := rest }
          let acc1 := acc ++
            (if cbs.featureCallback then [Emitted.feature ⟨st1.lineArena, st1.featArena⟩ fid]
             else [])
          let r := unbufferItem st1.lineArena st1.featArena (st1.featArena.length + 1) fid
            st1.underConstructionById st1.completedReferences
          enforceGo cbs add fuel
            { st1 with underConstructionById := r.1, completedReferences := r.2.1,
                       diverged := st1.diverged || r.2.2 } acc1
    else (st, acc)

/-- `enforceBufferSizeLimit(additionalItemCount, callbacks)`. -/
def enforceBufferSizeLimit (cbs : ParseCallbacks) (add : Nat) (st : ParserState) :
    ParserState × List Emitted :=
  enforceGo cbs add st.underConstructionTopLevel.length st []

/-- `emitAllUnderConstructionFeatures(callbacks)`: emit every top-level
feature in queue order, clear the three indices, then throw a
referential-integrity `Error` if the orphan map is non-empty (the orphan map
itself is not cleared). -/
def emitAllUnderConstructionFeatures (cbs : ParseCallbacks) (st : ParserState) : StepOut :=
  let ems :=
    if cbs.featureCallback then
      st.underConstructionTopLevel.map (Emitted.feature ⟨st.lineArena, st.featArena⟩)
    else []
  let st' := { st with underConstructionTopLevel := [], underConstructionById := [],
                       completedReferences := [] }
  if st'.underConstructionOrphans.isEmpty then ⟨st', ems, none⟩
  else ⟨st', ems, some (refErrorMessage (recKeys st'.underConstructionOrphans))⟩

/-- `resolveReferencesTo(feature, id)`: if orphans were waiting on `id`,
append them to the child/derived lists of every location of `feature` and
drop the orphan entry. -/
def resolveReferencesTo (st : ParserState) (fid : Nat) (id : String) : ParserState :=
  match recGet st.underConstructionOrphans id with
  | none => st
  | some refs =>
    let lids := (st.featArena.get? fid).getD []
    let la := lids.foldl
      (fun la lid => listModify la lid fun l =>
        { l with child_features := l.child_features ++ refs.Parent }) st.lineArena
    let la := lids.foldl
      (fun la lid => listModify la lid fun l =>
        { l with derived_features := l.derived_features ++ refs.Derives_from }) la
    { st with lineArena := la,
              underConstructionOrphans := recDelete st.underConstructionOrphans id }

/-- Append `childFid` to the child (`isParentRel`) or derived list of every
location of the target feature. -/
def attachToTarget (la : List LineRec) (targetLids : List Nat) (childFid : Nat)
    (isParentRel : Bool) : List LineRec :=
  targetLids.foldl
    (fun la lid => listModify la lid fun l =>
      if isParentRel then { l with child_features := l.child_features ++ [childFid] }
      else { l with derived_features := l.derived_features ++ [childFid] }) la

/-- One `toId` step of `resolveReferencesFrom`: if the target is known,
record the completed link for every id of the line (`postSet` runs for each
id) and attach the feature to every location of the target unless some id
had already completed this link; otherwise register the feature in the
orphan map under the target id. -/
def resolveOneRef (st : ParserState) (featureFid : Nat) (ids : List String)
    (relName : String) (isParentRel : Bool) (toId : String) : ParserState :=
  match recGet st.underConstructionById toId with
  | some otherFid =>
    let folded := ids.foldl
      (fun (acc : CompletedMap × Bool) id =>
        let r := postSet acc.1 id (relName ++ "," ++ toId)
        (r.1, acc.2 || r.2)) (st.completedReferences, false)
    let st := { st with completedReferences := folded.1 }
    if folded.2 then st
    else
      let la := attachToTarget st.lineArena ((st.featArena.get? otherFid).getD [])
        featureFid isParentRel
      { st with lineArena := la }
  | none =>
    let refs := (recGet st.underConstructionOrphans toId).getD ⟨[], []⟩
    let refs :=
      if isParentRel then { refs with Parent := refs.Parent ++ [featureFid] }
      else { refs with Derives_from := refs.Derives_from ++ [featureFid] }
    { st with underConstructionOrphans := recSet st.underConstructionOrphans toId refs }

/-- `resolveReferencesFrom(feature, references, ids)`. -/
def resolveReferencesFrom (st : ParserState) (featureFid : Nat)
    (parents derives : List String) (ids : List String) : ParserState :=
  let st := parents.foldl (fun st toId => resolveOneRef st featureFid ids "Parent" true toId) st
  derives.foldl (fun st toId => resolveOneRef st featureFid ids "Derives_from" false toId) st

/-- `existing[existing.length - 1]`: the last location record of a feature
(through the arenas). -/
def lastLocRec (st : ParserState) (fid : Nat) : Option LineRec :=
  match ((st.featArena.get? fid).getD []).getLast? with
  | some l => st.lineArena.get? l
  | none => none

/-- One iteration of the `ids.forEach` loop of `bufferLine`.  The new line
has already been appended to the line arena as `lid`. -/
def bufferOneId (cbs : ParseCallbacks) (raw : GFF3FeatureLine) (lid : Nat)
    (parents derives : List String)
    (acc : ParserState × List Emitted × Option Nat) (id : String) :
    ParserState × List Emitted × Option Nat :=
  let st := acc.1
  let ems := acc.2.1
  match recGet st.underConstructionById id with
  | some existingFid =>
    -- another location of the same feature
    let r :=
      match lastLocRec st existingFid with
      | some lastRec =>
        if lastRec.data.type ≠ raw.type then
          parseError cbs (mismatchMessage id raw.type lastRec.data.type) st
        else (st, [])
      | none => (st, [])  -- empty feature array: unreachable (JS would crash)
    let st := { r.1 with featArena := listModify r.1.featArena existingFid (· ++ [lid]) }
    (st, ems ++ r.2, some existingFid)
  | none =>
    -- not seen yet: create a fresh one-location feature (a fresh JS array
    -- per id, all sharing the same line object)
    let fid := st.featArena.length
    let st := { st with featArena := st.featArena ++ [[lid]] }
    let r := enforceBufferSizeLimit cbs 1 st
    let st := r.1
    let st :=
      if parents.isEmpty ∧ derives.isEmpty then
        { st with underConstructionTopLevel := st.underConstructionTopLevel ++ [fid] }
      else st
    let st := { st with underConstructionById := recSet st.underConstructionById id fid }
    let st := resolveReferencesTo st fid id
    (st, ems ++ r.2, some fid)

/-- `bufferLine(line, callbacks)`. -/
def bufferLine (cbs : ParseCallbacks) (st : ParserState) (line : String) :
    ParserState × List Emitted :=
  let raw := parseFeature line
  let lid := st.lineArena.length
  let st := { st with lineArena := st.lineArena ++ [⟨raw, [], []⟩] }
  let ids := featureLineIds raw
  let parents := featureLineParents raw
  let derives := if st.disableDerivesFromReferences then [] else featureLineDerivesRaw raw
  if ids.isEmpty ∧ parents.isEmpty ∧ derives.isEmpty then
    -- no IDs and no references: output the singleton feature immediately
    let fid := st.featArena.length
    let st := { st with featArena := st.featArena ++ [[lid]] }
    (st, if cbs.featureCallback then [Emitted.feature ⟨st.lineArena, st.featArena⟩ fid] else [])
  else
    let folded := ids.foldl (bufferOneId cbs raw lid parents derives) (st, [], none)
    match folded.2.2 with
    | some fid => (resolveReferencesFrom folded.1 fid parents derives ids, folded.2.1)
    | none =>
      -- `feature || [featureLine]`: ids was empty, use an anonymous feature
      let fid := folded.1.featArena.length
      let st := { folded.1 with featArena := folded.1.featArena ++ [[lid]] }
      (resolveReferencesFrom st fid parents derives ids, folded.2.1)

/-! ### Line classification (the regexps of `Parser.addLine`) -/

/-- `/^\s*[^#\s>]/.test(line)`. -/
def isFeatureLineStr (line : String) : Bool :=
  match line.data.dropWhile isJsWhitespace with
  | [] => false
  | c :: _ => decide (¬(c = '#' ∨ c = '>'))

/-- `/^\s*(#+)(.*)/.exec(line)`: the number of leading `#` (after optional
whitespace) and the rest of the line (up to a line terminator). -/
def hashMatch (line : String) : Option (Nat × String) :=
  let cs := line.data.dropWhile isJsWhitespace
  let hashes := cs.takeWhile (· = '#')
  if hashes.isEmpty then none
  else some (hashes.length, ⟨(cs.drop hashes.length).takeWhile isJsDot⟩)

/-- `/^\s*$/.test(line)`. -/
def isBlankLine (line : String) : Bool :=
  line.data.all isJsWhitespace

/-- `/^\s*>/.test(line)`. -/
def startsWithGt (line : String) : Bool :=
  match line.data.dropWhile isJsWhitespace with
  | '>' :: _ => true
  | _ => false

/-- `line.replaceAll(/\r\n|[\r\n]$/g, '')` (used only in the syntax-error
message). -/
def errLineClean (s : String) : String :=
  ⟨errLineCleanGo s.data⟩
where
  errLineCleanGo : List Char → List Char
    | [] => []
    | '\r' :: '\n' :: rest => errLineCleanGo rest
    | ['\r'] => []
    | ['\n'] => []
    | c :: rest => c :: errLineCleanGo rest

/-! ### The FASTA sub-parser (`FASTAParser` in `src/parse.ts`) -/

/-- `/^>\s*(\S+)\s*(.*)/.exec(line)`: the sequence id token and the raw
description remainder. -/
def fastaDefMatch (line : String) : Option (String × String) :=
  match line.data with
  | '>' :: rest =>
    let rest := rest.dropWhile isJsWhitespace
    let tok := rest.takeWhile fun c => ¬ isJsWhitespace c
    if tok.isEmpty then none
    else
      some (⟨tok⟩, ⟨((rest.drop tok.length).dropWhile isJsWhitespace).takeWhile isJsDot⟩)
  | _ => none

/-- `FASTAParser.addLine(line)`. -/
def fastaAddLine (fp : FASTAState) (line : String) : FASTAState × List Emitted :=
  match fastaDefMatch line with
  | some (id, rest) =>
    let ems :=
      match fp.currentSequence with
      | some s => if fp.hasSeqCallback then [Emitted.sequence s] else []
      | none => []
    let desc := if rest ≠ "" then some (jsTrim rest) else none
    (⟨some ⟨id, desc, ""⟩, fp.hasSeqCallback⟩, ems)
  | none =>
    match fp.currentSequence with
    | some s =>
      if line.data.any (fun c => ¬ isJsWhitespace c) then
        (⟨some { s with sequence := s.sequence ++ ⟨line.data.filter fun c => ¬ isJsWhitespace c⟩ },
          fp.hasSeqCallback⟩, [])
      else (fp, [])
    | none => (fp, [])

/-- `FASTAParser.finish()`. -/
def fastaFinish (fp : FASTAState) : List Emitted :=
  match fp.currentSequence with
  | some s => if fp.hasSeqCallback then [Emitted.sequence s] else []
  | none => []

/-! ### `Parser.addLine` and `Parser.finish` -/

/-- `Parser.addLine(line, callbacks)`. -/
def addLine (cbs : ParseCallbacks) (st : ParserState) (line : String) : StepOut :=
  match st.fastaParser with
  | some fp =>
    -- already in a FASTA section: delegate
    let r := fastaAddLine fp line
    ⟨{ st with fastaParser := some r.1 }, r.2, none⟩
  | none =>
    if st.eof then ⟨st, [], none⟩
    else
      let st := { st with lineNumber := st.lineNumber + 1 }
      if isFeatureLineStr line then
        let r := bufferLine cbs st line
        ⟨r.1, r.2, none⟩
      else
        match hashMatch line with
        | some (n, contents) =>
          if n = 3 then
            -- sync directive: all forward references are resolved
            emitAllUnderConstructionFeatures cbs st
          else if n = 2 then
            match parseDirective line with
            | some d =>
              if d.directive = "FASTA" then
                let r := emitAllUnderConstructionFeatures cbs st
                match r.thrown with
                | some e => ⟨r.state, r.emitted, some e⟩
                | none =>
                  let fp : Option FASTAState := some ⟨none, cbs.sequenceCallback⟩
                  ⟨{ r.state with eof := true, fastaParser := fp }, r.emitted, none⟩
              else
                ⟨st, if cbs.directiveCallback then [Emitted.directive d] else [], none⟩
            | none => ⟨st, [], none⟩
          else
            -- 1 or ≥ 4 hash signs: a comment (leading whitespace stripped)
            ⟨st,
             if cbs.commentCallback then [Emitted.comment ⟨contents.data.dropWhile isJsWhitespace⟩]
             else [], none⟩
        | none =>
          if isBlankLine line then ⟨st, [], none⟩
          else if startsWithGt line then
            -- implicit beginning of a FASTA section
            let r := emitAllUnderConstructionFeatures cbs st
            match r.thrown with
            | some e => ⟨r.state, r.emitted, some e⟩
            | none =>
              let f := fastaAddLine ⟨none, cbs.sequenceCallback⟩ line
              ⟨{ r.state with eof := true, fastaParser := some f.1 },
               r.emitted ++ f.2, none⟩
          else
            -- parse error (unreachable: every line matches one of the cases above)
            ⟨st, [], some ("GFF3 parse error. Cannot parse '" ++ errLineClean line ++ "'.")⟩

/-- `Parser.finish(callbacks)` (the no-op `endCallback` is not modelled). -/
def finish (cbs : ParseCallbacks) (st : ParserState) : StepOut :=
  let r := emitAllUnderConstructionFeatures cbs st
  match r.thrown with
  | some _ => r
  | none =>
    match r.state.fastaParser with
    | some fp => ⟨r.state, r.emitted ++ fastaFinish fp, none⟩
    | none => r

/-- Feed a list of lines through `addLine`, keeping only the final state
(the driver keeps calling `addLine` on the same parser instance). -/
def runLines (cbs : ParseCallbacks) (st : ParserState) : List String → ParserState
  | [] => st
  | l :: ls => runLines cbs (addLine cbs st l).state ls

/-! ### Formatting (`src/util.ts` format routines and the stream formatters)

The formatter consumes plain (materialized) item values, so features are
modelled here by the nested inductive `MFeatureLine` rather than by arena
references. -/

/-- A materialized `GFF3FeatureLineWithRefs` as consumed by the formatter:
the parsed line plus materialized child/derived features (each a list of
lines). -/
inductive MFeatureLine where
  | mk (data : GFF3FeatureLine)
       (child_features : List (List MFeatureLine))
       (derived_features : List (List MFeatureLine))
deriving Repr

/-- A materialized `GFF3Item` as consumed by the formatter. -/
inductive MItem where
  | feature (lines : List MFeatureLine)
  | directive (d : GFF3Directive)
  | comment (text : String)
  | sequence (s : GFF3Sequence)
deriving Repr

/-- `formatAttributes(attrs)` from `src/util.ts`: `tag=esc(v1),esc(v2)`
entries joined by `;`, or `.` when empty.  (In this model attribute values
are always arrays, so the `!val` guard and the non-array fallbacks of the
source never fire.) -/
def formatAttributes (attrs : GFF3Attributes) : String :=
  let attrOrder := attrs.foldl
    (fun acc p =>
      acc ++ [escape p.1 ++ "=" ++ String.intercalate "," (p.2.map escape)]) []
  if attrOrder.isEmpty then "." else String.intercalate ";" attrOrder

/-- JS string of a nullable-int column value (`NaN` included). -/
def nullableIntToString : Option Int → String
  | none => "NaN"
  | some i => toString i

/-- JS string of a `JsNumber`.  Integral values print exactly as in JS;
the shortest-round-trip decimal text of non-integral doubles is not
modelled (no claim formats a fractional score). -/
def jsNumberToString : JsNumber → String
  | JsNumber.nan => "NaN"
  | JsNumber.inf true => "-Infinity"
  | JsNumber.inf false => "Infinity"
  | JsNumber.val q => if q.den = 1 then toString q.num else toString q

/-- The de-duplication record of one `formatFeature` call (keys are the
formatted lines already emitted during the call). -/
abbrev SeenMap := List (String × Bool)

/-- `_formatSingleFeature(f, seenFeature)`: format the nine columns; if this
exact line was already output during this call, return the empty string,
otherwise record it. -/
def formatSingleFeatureM (f : GFF3FeatureLine) (seen : SeenMap) : String × SeenMap :=
  let attrString :=
    match f.attributes with
    | none => "."
    | some a => formatAttributes a
  let fields : List String :=
    [ (match f.seq_id with | none => "." | some s => escapeColumn s),
      (match f.source with | none => "." | some s => escapeColumn s),
      (match f.type with | none => "." | some s => escapeColumn s),
      (match f.start with | none => "." | some n => escapeColumn (nullableIntToString n)),
      (match f.end_ with | none => "." | some n => escapeColumn (nullableIntToString n)),
      (match f.score with | none => "." | some n => escapeColumn (jsNumberToString n)),
      (match f.strand with | none => "." | some s => escapeColumn s),
      (match f.phase with | none => "." | some s => escapeColumn s),
      attrString ]
  let line := String.intercalate "\t" fields ++ "\n"
  if (recGet seen line).getD false then ("", seen)
  else (line, recSet seen line true)

mutual

/-- `_formatFeature` on a single feature line: its own line followed by its
child features and then its derived features, threading the seen-record. -/
def formatLineM (l : MFeatureLine) (seen : SeenMap) : String × SeenMap :=
  match l with
  | .mk data children deriveds =>
    let r := formatSingleFeatureM data seen
    let r₂ := formatFeatListM children r.2
    let r₃ := formatFeatListM deriveds r₂.2
    (r.1 ++ r₂.1 ++ r₃.1, r₃.2)

/-- `_formatFeature` on a feature (an array of lines). -/
def formatFeatureM (ls : List MFeatureLine) (seen : SeenMap) : String × SeenMap :=
  match ls with
  | [] => ("", seen)
  | l :: rest =>
    let r := formatLineM l seen
    let r₂ := formatFeatureM rest r.2
    (r.1 ++ r₂.1, r₂.2)

/-- `_formatFeature` mapped over a `child_features`/`derived_features`
list. -/
def formatFeatListM (fs : List (List MFeatureLine)) (seen : SeenMap) : String × SeenMap :=
  match fs with
  | [] => ("", seen)
  | f :: rest =>
    let r := formatFeatureM f seen
    let r₂ := formatFeatListM rest r.2
    (r.1 ++ r₂.1, r₂.2)

end

/-- `formatDirective(directive)`. -/
def formatDirective (d : GFF3Directive) : String :=
  "##" ++ d.directive ++
    (match d.value with
     | some v => if v ≠ "" then " " ++ v else ""
     | none => "") ++ "\n"

/-- `formatComment(comment)`. -/
def formatComment (c : String) : String :=
  "# " ++ c ++ "\n"

/-- `formatSequence(seq)`. -/
def formatSequence (s : GFF3Sequence) : String :=
  ">" ++ s.id ++
    (match s.description with
     | some d => if d ≠ "" then " " ++ d else ""
     | none => "") ++ "\n" ++ s.sequence ++ "\n"

/-- `formatItem` applied to the chunk of a formatting transform: a feature
chunk is an array, so the transforms map `formatItem` over its lines (each
line formatted by `formatFeature` with a fresh seen-record); other items
format directly. -/
def formatItemChunk : MItem → String
  | .feature ls => String.join (ls.map fun l => (formatLineM l []).1)
  | .directive d => formatDirective d
  | .comment c => formatComment c
  | .sequence s => formatSequence s

/-- `'sequence' in chunk`. -/
def chunkIsSequence : MItem → Bool
  | .sequence _ => true
  | _ => false

/-- The number of `\n` characters in a string (the newline counting loop of
the formatting transforms). -/
def countNewlines (s : String) : Nat :=
  (s.data.filter (· = '\n')).length

/-- The three mutable fields shared by both formatting transforms. -/
structure FormattingState where
  linesSinceLastSyncMark : Nat
  haveWeEmittedData : Bool
  fastaMode : Bool
deriving DecidableEq, Repr

/-- The state of a freshly constructed formatting transform. -/
def initialFormattingState : FormattingState :=
  ⟨0, false, false⟩

/-- `options.minSyncLines || 100` (note `0` also falls back to 100). -/
def resolveMinSyncLines : Option Nat → Nat
  | some n => if n = 0 then 100 else n
  | none => 100

/-- `FormattingTransform` (`src/api.ts`): `options.insertVersionDirective ||
false`. -/
def resolveInsertVersionDirectiveApi : Option Bool → Bool
  | some b => b
  | none => false

/-- `GFFFormattingTransformer`: `options.insertVersionDirective === false ?
false : true`. -/
def resolveInsertVersionDirectiveTransformer : Option Bool → Bool
  | some b => b
  | none => true

/-- `FormattingTransform._transform` from `src/api.ts`: note that the
version-directive insertion only fires when the first chunk *is* a directive
(`if ('directive' in thisChunk)`), despite the comment above it in the
source. -/
def formattingTransformApi (minSync : Nat) (insertVD : Bool)
    (fs : FormattingState) (chunk : MItem) : FormattingState × List String :=
  let versionPushes :=
    if ¬ fs.haveWeEmittedData ∧ insertVD then
      match chunk with
      | .directive d => if d.directive ≠ "gff-version" then ["##gff-version 3\n"] else []
      | _ => []  -- `'directive' in thisChunk` is false: nothing is pushed
    else []
  let fastaPushes :=
    if chunkIsSequence chunk ∧ ¬ fs.fastaMode then ["##FASTA\n"] else []
  let fastaMode := fs.fastaMode || chunkIsSequence chunk
  let str := formatItemChunk chunk
  let r : List String × Nat :=
    if fs.linesSinceLastSyncMark ≥ minSync then (["###\n"], 0)
    else ([], fs.linesSinceLastSyncMark + countNewlines str)
  (⟨r.2, true, fastaMode⟩, versionPushes ++ fastaPushes ++ [str] ++ r.1)

/-- `GFFFormattingTransformer.transform` from the web-stream API: the
version directive is emitted whenever the first chunk is not itself a
`gff-version` directive. -/
def gffFormattingTransformerTransform (minSync : Nat) (insertVD : Bool)
    (fs : FormattingState) (chunk : MItem) : FormattingState × List String :=
  let versionPushes :=
    if ¬ fs.haveWeEmittedData ∧ insertVD then
      match chunk with
      | .directive d => if d.directive ≠ "gff-version" then ["##gff-version 3\n"] else []
      | _ => ["##gff-version 3\n"]  -- `!('directive' in chunk)` holds
    else []
  let fastaPushes :=
    if chunkIsSequence chunk ∧ ¬ fs.fastaMode then ["##FASTA\n"] else []
  let fastaMode := fs.fastaMode || chunkIsSequence chunk
  let str := formatItemChunk chunk
  let r : List String × Nat :=
    if fs.linesSinceLastSyncMark ≥ minSync then (["###\n"], 0)
    else ([], fs.linesSinceLastSyncMark + countNewlines str)
  (⟨r.2, true, fastaMode⟩, versionPushes ++ fastaPushes ++ [str] ++ r.1)

/-! ### Round-trip lemmas for the codec -/

theorem hexDigitVal?_hexDigitUpper {n : Nat} (h : n < 16) :
    hexDigitVal? (hexDigitUpper n) = some n := by
  interval_cases n <;> rfl

theorem hexDigitUpper_ne_percent {n : Nat} (h : n < 16) : hexDigitUpper n ≠ '%' := by
  interval_cases n <;> decide

theorem natToHexUpper_lt16 {n : Nat} (h : n < 16) :
    natToHexUpper n = [hexDigitUpper n] := by
  rw [natToHexUpper]
  simp [h]

theorem padStart2_natToHexUpper_lt256 {n : Nat} (h : n < 256) :
    padStart2 (natToHexUpper n) = [hexDigitUpper (n / 16), hexDigitUpper (n % 16)] := by
  by_cases h16 : n < 16
  · rw [natToHexUpper_lt16 h16]
    have hd : n / 16 = 0 := Nat.div_eq_of_lt h16
    have hm : n % 16 = n := Nat.mod_eq_of_lt h16
    rw [hd, hm]
    rfl
  · rw [natToHexUpper]
    have hdiv : n / 16 < 16 := by omega
    simp only [h16, dite_false]
    rw [natToHexUpper_lt16 hdiv]
    rfl

theorem unescapeChars_nil : unescapeChars [] = [] := rfl

theorem unescapeChars_cons_ne_percent {c : Char} (l : List Char) (hc : c ≠ '%') :
    unescapeChars (c :: l) = c :: unescapeChars l := by
  match l with
  | [] => rfl
  | [x] => rfl
  | x :: y :: r =>
    show (if c = '%' then _ else c :: unescapeChars (x :: y :: r)) = _
    rw [if_neg hc]

/-- A character whose code is below 256 decodes back from its 2-digit
upper-case hex encoding. -/
theorem decode_encode_char {c : Char} (h : c.toNat < 256) :
    Char.ofNat (16 * (c.toNat / 16) + c.toNat % 16) = c := by
  have heq : 16 * (c.toNat / 16) + c.toNat % 16 = c.toNat := by omega
  rw [heq, Char.ofNat_toNat]

/-- Core round-trip law: for any escape class `p` that escapes `%` and only
escapes characters with code below 256, decoding undoes encoding. -/
theorem unescapeChars_escapeChars (p : Char → Bool) (hp : p '%' = true)
    (hlt : ∀ c, p c = true → c.toNat < 256) :
    ∀ cs : List Char, unescapeChars (escapeChars p cs) = cs := by
  intro cs
  induction cs with
  | nil => rw [escapeChars]; exact unescapeChars_nil
  | cons c cs ih =>
    by_cases hc : p c = true
    · have h256 : c.toNat < 256 := hlt c hc
      have hdiv : c.toNat / 16 < 16 := by omega
      have hmod : c.toNat % 16 < 16 := by omega
      rw [escapeChars, if_pos hc, padStart2_natToHexUpper_lt256 h256]
      show unescapeChars ('%' :: hexDigitUpper (c.toNat / 16) ::
        hexDigitUpper (c.toNat % 16) :: escapeChars p cs) = c :: cs
      simp only [unescapeChars, if_pos rfl, hexDigitVal?_hexDigitUpper hdiv,
        hexDigitVal?_hexDigitUpper hmod]
      rw [decode_encode_char h256, ih]
      exact if_pos trivial
    · have hcp : c ≠ '%' := fun h => by rw [h] at hc; exact hc hp
      rw [escapeChars, if_neg hc]
      show unescapeChars (c :: escapeChars p cs) = c :: cs
      rw [unescapeChars_cons_ne_percent _ hcp, ih]

theorem escapeCharClass_lt256 : ∀ c, escapeCharClass c = true → c.toNat < 256 := by
  intro c h
  simp only [escapeCharClass, decide_eq_true_eq] at h
  omega

theorem escapeColumnCharClass_lt256 : ∀ c, escapeColumnCharClass c = true → c.toNat < 256 := by
  intro c h
  simp only [escapeColumnCharClass, decide_eq_true_eq] at h
  omega


/-! ### Generic lemmas about the record maps and folds -/

theorem foldl_preserve {α : Type} {β : Type} (P : α → Prop) (f : α → β → α)
    (hf : ∀ a b, P a → P (f a b)) :
    ∀ (l : List β) (a : α), P a → P (l.foldl f a)
  | [], _, ha => ha
  | b :: l, a, ha => foldl_preserve P f hf l (f a b) (hf a b ha)

theorem recGet_recSet_ne {α : Type} (m : List (String × α)) (k k' : String) (v : α)
    (h : k ≠ k') : recGet (recSet m k v) k' = recGet m k' := by
  induction m with
  | nil => simp [recSet, recGet, h]
  | cons p t ih =>
    by_cases hp : p.1 = k
    · rw [recSet, if_pos hp]
      show recGet ((k, v) :: t) k' = recGet (p :: t) k'
      rw [recGet, recGet]
      simp only []
      rw [if_neg h, if_neg (by rw [hp]; exact h)]
    · rw [recSet, if_neg hp]
      rw [recGet, recGet, ih]

theorem recGet_recSet_same {α : Type} (m : List (String × α)) (k : String) (v : α) :
    recGet (recSet m k v) k = some v := by
  induction m with
  | nil => simp [recSet, recGet]
  | cons p t ih =>
    by_cases hp : p.1 = k
    · rw [recSet, if_pos hp, recGet]
      simp
    · rw [recSet, if_neg hp, recGet, if_neg hp, ih]

theorem recGet_recDelete_none {α : Type} (m : List (String × α)) (k t : String)
    (h : recGet m t = none) : recGet (recDelete m k) t = none := by
  induction m with
  | nil => simp [recDelete, recGet]
  | cons p m ih =>
    rw [recGet] at h
    by_cases hp : p.1 = t
    · rw [if_pos hp] at h
      exact absurd h (by simp)
    · rw [if_neg hp] at h
      by_cases hk : p.1 = k
      · rw [recDelete, if_pos hk]
        exact ih h
      · rw [recDelete, if_neg hk, recGet, if_neg hp]
        exact ih h

theorem mem_recKeys_iff_isSome {α : Type} (m : List (String × α)) (t : String) :
    t ∈ recKeys m ↔ (recGet m t).isSome := by
  induction m with
  | nil => simp [recKeys, recGet]
  | cons p m ih =>
    simp only [recKeys, List.map_cons, List.mem_cons, recGet]
    by_cases hp : p.1 = t
    · simp [hp]
    · simp only [if_neg hp, ← ih, recKeys]
      constructor
      · rintro (h | h)
        · exact absurd h.symm hp
        · exact h
      · exact Or.inr

theorem mem_recKeys_recSet {α : Type} (m : List (String × α)) (k k' : String) (v : α)
    (h : k' ∈ recKeys m) : k' ∈ recKeys (recSet m k v) := by
  by_cases hk : k = k'
  · subst hk
    rw [mem_recKeys_iff_isSome, recGet_recSet_same]
    rfl
  · rw [mem_recKeys_iff_isSome, recGet_recSet_ne m k k' v hk, ← mem_recKeys_iff_isSome]
    exact h

theorem mem_recKeys_recSet_self {α : Type} (m : List (String × α)) (k : String) (v : α) :
    k ∈ recKeys (recSet m k v) := by
  rw [mem_recKeys_iff_isSome, recGet_recSet_same]
  rfl

theorem recGet_recDelete_ne {α : Type} (m : List (String × α)) (k t : String)
    (h : k ≠ t) : recGet (recDelete m k) t = recGet m t := by
  induction m with
  | nil => simp [recDelete]
  | cons p m ih =>
    by_cases hk : p.1 = k
    · rw [recDelete, if_pos hk, ih, recGet, if_neg (fun hpt => h ((hk ▸ hpt : k = t)))]
    · rw [recDelete, if_neg hk, recGet, recGet]
      by_cases hp : p.1 = t
      · rw [if_pos hp, if_pos hp]
      · rw [if_neg hp, if_neg hp, ih]

theorem mem_recKeys_recDelete {α : Type} (m : List (String × α)) (k t : String)
    (hne : k ≠ t) (h : t ∈ recKeys m) : t ∈ recKeys (recDelete m k) := by
  rw [mem_recKeys_iff_isSome, recGet_recDelete_ne m k t hne, ← mem_recKeys_iff_isSome]
  exact h

/-! ### C7: the escape/unescape round trip -/

/-- **C7.** For every string `s`, `unescape (escape s) = s` and
`unescape (escapeColumn s) = s`: `unescape` is the exact inverse of both
escaping functions on all inputs. -/
theorem claim_C7_escape_unescape_roundtrip (s : String) :
    unescape (escape s) = s ∧ unescape (escapeColumn s) = s := by
  constructor
  · show String.mk (unescapeChars (escapeChars escapeCharClass s.data)) = s
    rw [unescapeChars_escapeChars escapeCharClass (by decide) escapeCharClass_lt256]
  · show String.mk (unescapeChars (escapeChars escapeColumnCharClass s.data)) = s
    rw [unescapeChars_escapeChars escapeColumnCharClass (by decide) escapeColumnCharClass_lt256]

/-! ### C9: `parseAttributes` -/

/-- **C9, counterexample.** The claim states that a value containing a
further `=` keeps everything after the first `=`; in fact `split('=', 2)`
truncates, so `parseAttributes "foo=bar=baz"` yields `{foo: ["bar"]}`, not
`{foo: ["bar=baz"]}`. -/
theorem claim_C9_counterexample :
    parseAttributes "foo=bar=baz" = [("foo", ["bar"])] ∧
    parseAttributes "foo=bar=baz" ≠ [("foo", ["bar=baz"])] := by
  constructor
  · rfl
  · decide

/-- **C9, amended.** `parseAttributes` splits its input on `;`; each entry
is split on `=` and the value is the segment between the first and the
second `=` (text after a second `=` is discarded); an entry whose value is
missing or empty is discarded; the key is trimmed of surrounding
whitespace; multi-value attributes split on `,` with each value trimmed
then unescaped, values of a repeated key accumulate; input `.` or the empty
string yields an empty mapping (one trailing line break is stripped first).
Each clause exhibited on a covering input. -/
theorem claim_C9_amended_parseAttributes :
    parseAttributes "." = [] ∧
    parseAttributes "" = [] ∧
    parseAttributes "foo=bar" = [("foo", ["bar"])] ∧
    parseAttributes "foo=bar=baz" = [("foo", ["bar"])] ∧
    parseAttributes "Target=Motif;rnd-family-27" = [("Target", ["Motif"])] ∧
    parseAttributes "k=;a=1" = [("a", ["1"])] ∧
    parseAttributes "a= 1 , 2 ;b=%09" = [("a", ["1", "2"]), ("b", ["\t"])] ∧
    parseAttributes "a=1;a=2" = [("a", ["1", "2"])] ∧
    parseAttributes " key =v\n" = [("key", ["v"])] := by
  refine ⟨rfl, rfl, rfl, rfl, rfl, rfl, ?_, rfl, rfl⟩
  rfl

/-! ### C8: version-directive insertion in the formatting transforms -/

/-- **C8.** With version-directive insertion enabled and a first item that
is a comment (not a `gff-version` directive), `FormattingTransform` from
`src/api.ts` pushes no `##gff-version 3` line — contradicting its own source
comment and the claim — while `GFFFormattingTransformer` of the web-stream
API pushes it before the formatted item, as the claim states. -/
theorem claim_C8_version_directive_first_item :
    (formattingTransformApi 100 true initialFormattingState (MItem.comment "hi")).2
      = ["# hi\n"] ∧
    "##gff-version 3\n" ∉
      (formattingTransformApi 100 true initialFormattingState (MItem.comment "hi")).2 ∧
    (gffFormattingTransformerTransform 100 true initialFormattingState (MItem.comment "hi")).2
      = ["##gff-version 3\n", "# hi\n"] ∧
    (gffFormattingTransformerTransform 100 true initialFormattingState
      (MItem.directive { directive := "gff-version", value := some "3" })).2
      = ["##gff-version 3\n"] := by
  refine ⟨rfl, by decide, rfl, rfl⟩

/-! ### C4: synchronization marks -/

theorem hashMatch_head_hash (line : String) {n : Nat} {c : String}
    (h : hashMatch line = some (n, c)) :
    ∃ rest, line.data.dropWhile isJsWhitespace = '#' :: rest := by
  rw [hashMatch] at h
  cases hcs : line.data.dropWhile isJsWhitespace with
  | nil =>
    rw [hcs] at h
    simp [List.takeWhile] at h
  | cons c₀ rest =>
    rw [hcs] at h
    by_cases hc₀ : c₀ = '#'
    · exact ⟨rest, by rw [hc₀]⟩
    · simp [List.takeWhile, hc₀] at h

theorem isFeatureLineStr_false_of_hashMatch (line : String) {n : Nat} {c : String}
    (h : hashMatch line = some (n, c)) : isFeatureLineStr line = false := by
  obtain ⟨rest, hcs⟩ := hashMatch_head_hash line h
  rw [isFeatureLineStr, hcs]
  rfl

/-- **C4, amended.** A line whose leading `#` run (after optional
whitespace) has length exactly 3 triggers the full flush
(`emitAllUnderConstructionFeatures`); a run of 4 or more is treated as a
comment line (the run and the leading whitespace of the rest stripped), with
no flush and no state change beyond the line counter. -/
theorem claim_C4_amended_sync_mark (cbs : ParseCallbacks) (st : ParserState)
    (line : String) (n : Nat) (contents : String)
    (hf : st.fastaParser = none) (he : st.eof = false)
    (hm : hashMatch line = some (n, contents)) :
    (n = 3 →
      addLine cbs st line =
        emitAllUnderConstructionFeatures cbs { st with lineNumber := st.lineNumber + 1 }) ∧
    (4 ≤ n →
      addLine cbs st line =
        ⟨{ st with lineNumber := st.lineNumber + 1 },
         if cbs.commentCallback then [Emitted.comment ⟨contents.data.dropWhile isJsWhitespace⟩]
         else [], none⟩) := by
  have hfeat : isFeatureLineStr line = false := isFeatureLineStr_false_of_hashMatch line hm
  constructor
  · intro h3
    subst h3
    simp only [addLine, hf, he, hfeat, Bool.false_eq_true, if_false, hm, if_pos rfl]
    rw [if_pos trivial]
  · intro h4
    have h3 : ¬ (n = 3) := by omega
    have h2 : ¬ (n = 2) := by omega
    simp only [addLine, hf, he, hfeat, Bool.false_eq_true, if_false, hm, if_neg h3, if_neg h2]

/-- Witness for the amended C4: on a fresh parser, `###` performs the flush
and `####` is delivered as an (empty) comment. -/
theorem claim_C4_amended_sync_mark_witness :
    addLine allCallbacks initialParserState "###" =
      emitAllUnderConstructionFeatures allCallbacks
        { initialParserState with lineNumber := initialParserState.lineNumber + 1 } ∧
    addLine allCallbacks initialParserState "####" =
      ⟨{ initialParserState with lineNumber := initialParserState.lineNumber + 1 },
       [Emitted.comment ""], none⟩ :=
  ⟨(claim_C4_amended_sync_mark allCallbacks initialParserState "###" 3 "" rfl rfl rfl).1 rfl,
   (claim_C4_amended_sync_mark allCallbacks initialParserState "####" 4 "" rfl rfl rfl).2
     (by omega)⟩

/-- **C4, counterexample.** With one feature (`ID=a`) buffered, a `####`
line is emitted as a comment and performs no flush (the feature stays
buffered), while a `###` line flushes it (one feature emitted, queue
cleared); so a line of four or more `#` does not trigger the
synchronization flush the claim asserts. -/
theorem claim_C4_counterexample :
    (addLine allCallbacks
      (addLine allCallbacks initialParserState "x\t.\tgene\t1\t2\t.\t.\t.\tID=a").state
      "####").emitted = [Emitted.comment ""] ∧
    (addLine allCallbacks
      (addLine allCallbacks initialParserState "x\t.\tgene\t1\t2\t.\t.\t.\tID=a").state
      "####").state.underConstructionTopLevel = [0] ∧
    (addLine allCallbacks
      (addLine allCallbacks initialParserState "x\t.\tgene\t1\t2\t.\t.\t.\tID=a").state
      "###").state.underConstructionTopLevel = [] ∧
    (addLine allCallbacks
      (addLine allCallbacks initialParserState "x\t.\tgene\t1\t2\t.\t.\t.\tID=a").state
      "###").emitted.length = 1 := by
  refine ⟨rfl, rfl, rfl, rfl⟩


/-! ### C5: error terminality -/

/-- With `eof` set and no FASTA sub-parser, `addLine` is a no-op. -/
theorem addLine_ignored_of_eof (cbs : ParseCallbacks) (st : ParserState) (line : String)
    (h1 : st.fastaParser = none) (h2 : st.eof = true) :
    addLine cbs st line = ⟨st, [], none⟩ := by
  simp only [addLine, h1, h2]
  rw [if_pos trivial]

/-- **C5, counterexample.** A referential-integrity error at a `###` flush
(`Parent=missing` never defined) does not put the engine in a terminal
state: the flush throws, `eof` stays false, and a later `addLine` call still
emits a feature — contradicting the claim that after any error every
subsequently supplied line is ignored with no further emission. -/
theorem claim_C5_counterexample :
    (addLine allCallbacks
      (addLine allCallbacks initialParserState
        "a\t.\tgene\t1\t2\t.\t.\t.\tParent=missing").state
      "###").thrown = some (refErrorMessage ["missing"]) ∧
    (addLine allCallbacks
      (addLine allCallbacks initialParserState
        "a\t.\tgene\t1\t2\t.\t.\t.\tParent=missing").state
      "###").state.eof = false ∧
    (addLine allCallbacks
      (addLine allCallbacks
        (addLine allCallbacks initialParserState
          "a\t.\tgene\t1\t2\t.\t.\t.\tParent=missing").state
        "###").state
      "b\t.\tgene\t1\t2\t.\t.\t.\t.").emitted.length = 1 := by
  refine ⟨rfl, rfl, rfl⟩

/-- **C5, amended.** Only the type-mismatch error makes the engine
terminal: once `eof` is set (and no FASTA sub-parser is active) every
subsequent `addLine` call is ignored — state unchanged, nothing emitted,
nothing thrown.  A referential-integrity error at a flush is instead thrown
to the caller without setting `eof` (and without clearing the orphan map),
so the engine itself would process a later `addLine` call; the syntax-error
branch of `addLine` is unreachable.  The surrounding entry points stop
feeding lines only because the exception propagates to them. -/
theorem claim_C5_amended_error_terminality :
    (∀ (cbs : ParseCallbacks) (st : ParserState) (line : String),
      st.fastaParser = none → st.eof = true → addLine cbs st line = ⟨st, [], none⟩) ∧
    (∀ (cbs : ParseCallbacks) (st : ParserState),
      st.underConstructionOrphans ≠ [] →
        (emitAllUnderConstructionFeatures cbs st).state.eof = st.eof ∧
        (emitAllUnderConstructionFeatures cbs st).state.underConstructionOrphans
          = st.underConstructionOrphans ∧
        (emitAllUnderConstructionFeatures cbs st).thrown
          = some (refErrorMessage (recKeys st.underConstructionOrphans))) := by
  constructor
  · exact addLine_ignored_of_eof
  · intro cbs st h
    have hne : st.underConstructionOrphans.isEmpty = false := by
      cases hm : st.underConstructionOrphans with
      | nil => exact absurd hm h
      | cons a t => rfl
    refine ⟨?_, ?_, ?_⟩ <;> simp [emitAllUnderConstructionFeatures, hne]

/-- Witness for the amended C5 at concrete inputs. -/
theorem claim_C5_amended_error_terminality_witness :
    addLine allCallbacks { initialParserState with eof := true }
      "x\t.\tgene\t1\t2\t.\t.\t.\tID=a"
      = ⟨{ initialParserState with eof := true }, [], none⟩ ∧
    (emitAllUnderConstructionFeatures allCallbacks
      { initialParserState with
          underConstructionOrphans := [("missing", ⟨[], []⟩)] }).thrown
      = some (refErrorMessage ["missing"]) := by
  constructor
  · exact claim_C5_amended_error_terminality.1 allCallbacks _ _ rfl rfl
  · exact (claim_C5_amended_error_terminality.2 allCallbacks _ (by decide)).2.2

/-! ### C6: type-mismatch errors -/

theorem resolveOneRef_preserves (st : ParserState) (fid : Nat) (ids : List String)
    (rel : String) (isP : Bool) (toId : String) :
    (resolveOneRef st fid ids rel isP toId).eof = st.eof ∧
    (resolveOneRef st fid ids rel isP toId).fastaParser = st.fastaParser ∧
    (resolveOneRef st fid ids rel isP toId).underConstructionTopLevel
      = st.underConstructionTopLevel ∧
    (resolveOneRef st fid ids rel isP toId).underConstructionById
      = st.underConstructionById ∧
    (resolveOneRef st fid ids rel isP toId).featArena = st.featArena ∧
    (resolveOneRef st fid ids rel isP toId).lineNumber = st.lineNumber ∧
    (resolveOneRef st fid ids rel isP toId).bufferSize = st.bufferSize ∧
    (resolveOneRef st fid ids rel isP toId).diverged = st.diverged ∧
    (resolveOneRef st fid ids rel isP toId).disableDerivesFromReferences
      = st.disableDerivesFromReferences := by
  rw [resolveOneRef]
  cases recGet st.underConstructionById toId with
  | some otherFid =>
    simp only []
    split <;> simp
  | none => simp

/-- `resolveReferencesFrom` only changes the completed-reference set, the
line arena and the orphan map. -/
theorem resolveReferencesFrom_preserves (st : ParserState) (fid : Nat)
    (parents derives ids : List String) :
    (resolveReferencesFrom st fid parents derives ids).eof = st.eof ∧
    (resolveReferencesFrom st fid parents derives ids).fastaParser = st.fastaParser ∧
    (resolveReferencesFrom st fid parents derives ids).underConstructionTopLevel
      = st.underConstructionTopLevel ∧
    (resolveReferencesFrom st fid parents derives ids).underConstructionById
      = st.underConstructionById ∧
    (resolveReferencesFrom st fid parents derives ids).featArena = st.featArena ∧
    (resolveReferencesFrom st fid parents derives ids).lineNumber = st.lineNumber ∧
    (resolveReferencesFrom st fid parents derives ids).bufferSize = st.bufferSize ∧
    (resolveReferencesFrom st fid parents derives ids).diverged = st.diverged ∧
    (resolveReferencesFrom st fid parents derives ids).disableDerivesFromReferences
      = st.disableDerivesFromReferences := by
  rw [resolveReferencesFrom]
  have main : ∀ (rel : String) (isP : Bool) (l : List String) (s : ParserState),
      (s.eof = st.eof ∧ s.fastaParser = st.fastaParser ∧
       s.underConstructionTopLevel = st.underConstructionTopLevel ∧
       s.underConstructionById = st.underConstructionById ∧
       s.featArena = st.featArena ∧ s.lineNumber = st.lineNumber ∧
       s.bufferSize = st.bufferSize ∧ s.diverged = st.diverged ∧
       s.disableDerivesFromReferences = st.disableDerivesFromReferences) →
      ((l.foldl (fun s toId => resolveOneRef s fid ids rel isP toId) s).eof = st.eof ∧
       (l.foldl (fun s toId => resolveOneRef s fid ids rel isP toId) s).fastaParser
         = st.fastaParser ∧
       (l.foldl (fun s toId => resolveOneRef s fid ids rel isP toId) s).underConstructionTopLevel
         = st.underConstructionTopLevel ∧
       (l.foldl (fun s toId => resolveOneRef s fid ids rel isP toId) s).underConstructionById
         = st.underConstructionById ∧
       (l.foldl (fun s toId => resolveOneRef s fid ids rel isP toId) s).featArena
         = st.featArena ∧
       (l.foldl (fun s toId => resolveOneRef s fid ids rel isP toId) s).lineNumber
         = st.lineNumber ∧
       (l.foldl (fun s toId => resolveOneRef s fid ids rel isP toId) s).bufferSize
         = st.bufferSize ∧
       (l.foldl (fun s toId => resolveOneRef s fid ids rel isP toId) s).diverged
         = st.diverged ∧
       (l.foldl (fun s toId => resolveOneRef s fid ids rel isP toId) s).disableDerivesFromReferences
         = st.disableDerivesFromReferences) := by
    intro rel isP l
    exact foldl_preserve _ _ (fun s toId hs => by
      obtain ⟨e, f, t, b, fa, ln, bs, d, dd⟩ := hs
      have h := resolveOneRef_preserves s fid ids rel isP toId
      exact ⟨h.1.trans e, h.2.1.trans f, h.2.2.1.trans t, h.2.2.2.1.trans b,
        h.2.2.2.2.1.trans fa, h.2.2.2.2.2.1.trans ln, h.2.2.2.2.2.2.1.trans bs,
        h.2.2.2.2.2.2.2.1.trans d, h.2.2.2.2.2.2.2.2.trans dd⟩) l
  exact main "Derives_from" false derives _
    (main "Parent" true parents st ⟨rfl, rfl, rfl, rfl, rfl, rfl, rfl, rfl, rfl⟩)

theorem resolveReferencesFrom_eof (st : ParserState) (fid : Nat)
    (parents derives ids : List String) :
    (resolveReferencesFrom st fid parents derives ids).eof = st.eof :=
  (resolveReferencesFrom_preserves st fid parents derives ids).1

theorem resolveReferencesFrom_fastaParser (st : ParserState) (fid : Nat)
    (parents derives ids : List String) :
    (resolveReferencesFrom st fid parents derives ids).fastaParser = st.fastaParser :=
  (resolveReferencesFrom_preserves st fid parents derives ids).2.1

/-- **C6.** Feeding a feature line whose (single) `ID` is already mapped to
a buffered feature whose last location carries a different `type` raises the
type-mismatch parse error: the error callback receives the
inconsistent-types message, `eof` becomes true, nothing is thrown, and every
subsequent `addLine` call on the resulting state is ignored (the parse is
halted). -/
theorem claim_C6_type_mismatch_fatal (cbs : ParseCallbacks) (st : ParserState)
    (line : String) (i : String) (fid lastLid : Nat) (lastRec : LineRec)
    (hf : st.fastaParser = none) (he : st.eof = false)
    (hfeat : isFeatureLineStr line = true)
    (hids : featureLineIds (parseFeature line) = [i])
    (hex : recGet st.underConstructionById i = some fid)
    (hll : ((st.featArena.get? fid).getD []).getLast? = some lastLid)
    (hlr : List.get? (st.lineArena ++ [⟨parseFeature line, [], []⟩]) lastLid = some lastRec)
    (hty : lastRec.data.type ≠ (parseFeature line).type)
    (herr : cbs.errorCallback = true) :
    (addLine cbs st line).emitted =
      [Emitted.error (toString (st.lineNumber + 1) ++ ": " ++
        mismatchMessage i (parseFeature line).type lastRec.data.type)] ∧
    (addLine cbs st line).thrown = none ∧
    (addLine cbs st line).state.eof = true ∧
    (∀ (cbs' : ParseCallbacks) (line' : String),
      addLine cbs' (addLine cbs st line).state line'
        = ⟨(addLine cbs st line).state, [], none⟩) := by
  have key : ∃ st', addLine cbs st line =
      ⟨st', [Emitted.error (toString (st.lineNumber + 1) ++ ": " ++
        mismatchMessage i (parseFeature line).type lastRec.data.type)], none⟩ ∧
      st'.eof = true ∧ st'.fastaParser = none := by
    simp only [addLine, hf, he, hfeat, if_pos trivial, if_true, Bool.false_eq_true, if_false,
      bufferLine, hids, List.isEmpty_cons, false_and, List.foldl, bufferOneId, hex,
      lastLocRec, hll, hlr, ne_eq, hty, not_false_eq_true, if_true,
      parseError, herr, List.nil_append]
    refine ⟨_, rfl, ?_, ?_⟩
    · simp only [resolveReferencesFrom_eof]
    · simp only [resolveReferencesFrom_fastaParser]
  obtain ⟨st', hr, heof, hfp⟩ := key
  refine ⟨by rw [hr], by rw [hr], by rw [hr]; exact heof, ?_⟩
  intro cbs' line'
  rw [hr]
  exact addLine_ignored_of_eof cbs' st' line' hfp heof

/-- Witness for C6: two concrete lines with `ID=x` and types `gene` /
`mRNA`. -/
theorem claim_C6_type_mismatch_fatal_witness :
    (addLine allCallbacks
      (addLine allCallbacks initialParserState "a\t.\tgene\t1\t2\t.\t.\t.\tID=x").state
      "a\t.\tmRNA\t3\t4\t.\t.\t.\tID=x").state.eof = true ∧
    (addLine allCallbacks
      (addLine allCallbacks initialParserState "a\t.\tgene\t1\t2\t.\t.\t.\tID=x").state
      "a\t.\tmRNA\t3\t4\t.\t.\t.\tID=x").emitted.length = 1 := by
  have h := claim_C6_type_mismatch_fatal allCallbacks
    (addLine allCallbacks initialParserState "a\t.\tgene\t1\t2\t.\t.\t.\tID=x").state
    "a\t.\tmRNA\t3\t4\t.\t.\t.\tID=x" "x" 0 0
    ⟨parseFeature "a\t.\tgene\t1\t2\t.\t.\t.\tID=x", [], []⟩
    rfl rfl rfl rfl rfl rfl rfl (by decide) rfl
  exact ⟨h.2.2.1, by rw [h.1]; rfl⟩

/-! ### Machinery: preservation lemmas for the engine operations -/

theorem list_get?_concat_length {α : Type} :
    ∀ (l : List α) (x : α), (l ++ [x]).get? l.length = some x
  | [], _ => rfl
  | _ :: l, x => list_get?_concat_length l x

theorem listModify_concat_length {α : Type} :
    ∀ (l : List α) (x : α) (f : α → α), listModify (l ++ [x]) l.length f = l ++ [f x]
  | [], _, _ => rfl
  | y :: l, x, f => congrArg (y :: ·) (listModify_concat_length l x f)

theorem foldl_preserve_mem {α : Type} {β : Type} (P : α → Prop) (f : α → β → α) :
    ∀ (l : List β), (∀ b ∈ l, ∀ a, P a → P (f a b)) → ∀ a, P a → P (l.foldl f a)
  | [], _, _, ha => ha
  | b :: l, hf, a, ha =>
    foldl_preserve_mem P f l (fun b' hb' => hf b' (List.mem_cons_of_mem b hb'))
      (f a b) (hf b (List.mem_cons_self b l) a ha)

/-- `_unbufferItem` only deletes by-id entries: a key that is absent stays
absent. -/
theorem unbufferItem_byId_get_none (la : List LineRec) (fa : List (List Nat)) :
    ∀ (fuel fid : Nat) (byId : List (String × Nat)) (comp : CompletedMap) (t : String),
      recGet byId t = none →
      recGet (unbufferItem la fa fuel fid byId comp).1 t = none := by
  intro fuel
  induction fuel with
  | zero => intro fid byId comp t h; exact h
  | succ fuel ih =>
    intro fid byId comp t h
    rw [unbufferItem]
    simp only []
    split
    · exact h
    · split
      · exact h
      · split
        · exact h
        · split
          · exact h
          · refine foldl_preserve
              (fun (acc : List (String × Nat) × CompletedMap × Bool) => recGet acc.1 t = none)
              _ ?_ _ _ ?_
            · intro acc lid hacc
              split
              · exact hacc
              · refine foldl_preserve
                  (fun (acc : List (String × Nat) × CompletedMap × Bool) =>
                    recGet acc.1 t = none) _ ?_ _ _
                  (foldl_preserve
                    (fun (acc : List (String × Nat) × CompletedMap × Bool) =>
                      recGet acc.1 t = none) _ ?_ _ _ hacc)
                · intro acc d hacc'
                  exact ih d acc.1 acc.2.1 t hacc'
                · intro acc c hacc'
                  exact ih c acc.1 acc.2.1 t hacc'
            · exact foldl_preserve (fun m => recGet m t = none) recDelete
                (fun m id hm => recGet_recDelete_none m id t hm) _ _ h

/-- The eviction loop only changes the queue, the by-id map, the completed
set and the `diverged` flag. -/
theorem enforceGo_preserves (cbs : ParseCallbacks) (add : Nat) :
    ∀ (fuel : Nat) (st : ParserState) (acc : List Emitted),
      (enforceGo cbs add fuel st acc).1.bufferSize = st.bufferSize ∧
      (enforceGo cbs add fuel st acc).1.disableDerivesFromReferences
        = st.disableDerivesFromReferences ∧
      (enforceGo cbs add fuel st acc).1.fastaParser = st.fastaParser ∧
      (enforceGo cbs add fuel st acc).1.eof = st.eof ∧
      (enforceGo cbs add fuel st acc).1.lineNumber = st.lineNumber ∧
      (enforceGo cbs add fuel st acc).1.lineArena = st.lineArena ∧
      (enforceGo cbs add fuel st acc).1.featArena = st.featArena ∧
      (enforceGo cbs add fuel st acc).1.underConstructionOrphans
        = st.underConstructionOrphans := by
  intro fuel
  induction fuel with
  | zero =>
    intro st acc
    rw [enforceGo]
    by_cases hb : bufOver st.bufferSize (st.underConstructionTopLevel.length + add) = true
    · rw [if_pos hb]
      cases htl : st.underConstructionTopLevel with
      | nil => exact ⟨rfl, rfl, rfl, rfl, rfl, rfl, rfl, rfl⟩
      | cons fid rest => exact ⟨rfl, rfl, rfl, rfl, rfl, rfl, rfl, rfl⟩
    · rw [if_neg hb]
      exact ⟨rfl, rfl, rfl, rfl, rfl, rfl, rfl, rfl⟩
  | succ fuel ih =>
    intro st acc
    rw [enforceGo]
    by_cases hb : bufOver st.bufferSize (st.underConstructionTopLevel.length + add) = true
    · rw [if_pos hb]
      cases htl : st.underConstructionTopLevel with
      | nil => exact ⟨rfl, rfl, rfl, rfl, rfl, rfl, rfl, rfl⟩
      | cons fid rest =>
        exact ⟨(ih _ _).1, (ih _ _).2.1, (ih _ _).2.2.1, (ih _ _).2.2.2.1,
          (ih _ _).2.2.2.2.1, (ih _ _).2.2.2.2.2.1, (ih _ _).2.2.2.2.2.2.1,
          (ih _ _).2.2.2.2.2.2.2⟩
    · rw [if_neg hb]
      exact ⟨rfl, rfl, rfl, rfl, rfl, rfl, rfl, rfl⟩

/-- The eviction loop only deletes by-id entries. -/
theorem enforceGo_byId_get_none (cbs : ParseCallbacks) (add : Nat) :
    ∀ (fuel : Nat) (st : ParserState) (acc : List Emitted) (t : String),
      recGet st.underConstructionById t = none →
      recGet (enforceGo cbs add fuel st acc).1.underConstructionById t = none := by
  intro fuel
  induction fuel with
  | zero =>
    intro st acc t h
    rw [enforceGo]
    by_cases hb : bufOver st.bufferSize (st.underConstructionTopLevel.length + add) = true
    · rw [if_pos hb]
      cases htl : st.underConstructionTopLevel with
      | nil => exact h
      | cons fid rest => exact h
    · rw [if_neg hb]; exact h
  | succ fuel ih =>
    intro st acc t h
    rw [enforceGo]
    by_cases hb : bufOver st.bufferSize (st.underConstructionTopLevel.length + add) = true
    · rw [if_pos hb]
      cases htl : st.underConstructionTopLevel with
      | nil => exact h
      | cons fid rest =>
        exact ih _ _ t (unbufferItem_byId_get_none _ _ _ _ _ _ t h)
    · rw [if_neg hb]; exact h

/-- `resolveReferencesTo` only changes the line arena and the orphan map. -/
theorem resolveReferencesTo_preserves (st : ParserState) (fid : Nat) (id : String) :
    (resolveReferencesTo st fid id).bufferSize = st.bufferSize ∧
    (resolveReferencesTo st fid id).disableDerivesFromReferences
      = st.disableDerivesFromReferences ∧
    (resolveReferencesTo st fid id).fastaParser = st.fastaParser ∧
    (resolveReferencesTo st fid id).eof = st.eof ∧
    (resolveReferencesTo st fid id).lineNumber = st.lineNumber ∧
    (resolveReferencesTo st fid id).featArena = st.featArena ∧
    (resolveReferencesTo st fid id).underConstructionTopLevel
      = st.underConstructionTopLevel ∧
    (resolveReferencesTo st fid id).underConstructionById = st.underConstructionById ∧
    (resolveReferencesTo st fid id).completedReferences = st.completedReferences ∧
    (resolveReferencesTo st fid id).diverged = st.diverged := by
  rw [resolveReferencesTo]
  cases h : recGet st.underConstructionOrphans id with
  | none => exact ⟨rfl, rfl, rfl, rfl, rfl, rfl, rfl, rfl, rfl, rfl⟩
  | some refs => exact ⟨rfl, rfl, rfl, rfl, rfl, rfl, rfl, rfl, rfl, rfl⟩

/-- `resolveReferencesTo` touches only the orphan entry of its own id. -/
theorem resolveReferencesTo_orphans_get_ne (st : ParserState) (fid : Nat) (id t : String)
    (hne : id ≠ t) :
    recGet (resolveReferencesTo st fid id).underConstructionOrphans t
      = recGet st.underConstructionOrphans t := by
  rw [resolveReferencesTo]
  cases h : recGet st.underConstructionOrphans id with
  | none => rfl
  | some refs => exact recGet_recDelete_ne _ _ _ hne

theorem resolveReferencesTo_orphans_mem_ne (st : ParserState) (fid : Nat) (id t : String)
    (hne : id ≠ t) (h : t ∈ recKeys st.underConstructionOrphans) :
    t ∈ recKeys (resolveReferencesTo st fid id).underConstructionOrphans := by
  rw [mem_recKeys_iff_isSome, resolveReferencesTo_orphans_get_ne st fid id t hne,
    ← mem_recKeys_iff_isSome]
  exact h

/-- `resolveOneRef` never removes an orphan entry. -/
theorem resolveOneRef_orphans_mem (s : ParserState) (fid : Nat) (ids : List String)
    (rel : String) (isP : Bool) (toId t : String)
    (h : t ∈ recKeys s.underConstructionOrphans) :
    t ∈ recKeys (resolveOneRef s fid ids rel isP toId).underConstructionOrphans := by
  rw [resolveOneRef]
  cases hb : recGet s.underConstructionById toId with
  | some otherFid =>
    simp only []
    split
    · exact h
    · exact h
  | none => exact mem_recKeys_recSet _ _ _ _ h

/-- A reference to an unknown id registers an orphan entry under that id. -/
theorem resolveOneRef_orphans_self (s : ParserState) (fid : Nat) (ids : List String)
    (rel : String) (isP : Bool) (t : String)
    (h : recGet s.underConstructionById t = none) :
    t ∈ recKeys (resolveOneRef s fid ids rel isP t).underConstructionOrphans := by
  rw [resolveOneRef, h]
  exact mem_recKeys_recSet_self _ _ _

/-- First `Parent` reference to an unknown id: the orphan entry is exactly
the singleton feature list. -/
theorem resolveOneRef_orphans_value (s : ParserState) (fid : Nat) (ids : List String)
    (rel : String) (t : String)
    (hby : recGet s.underConstructionById t = none)
    (horph : recGet s.underConstructionOrphans t = none) :
    recGet (resolveOneRef s fid ids rel true t).underConstructionOrphans t
      = some ⟨[fid], []⟩ := by
  rw [resolveOneRef, hby]
  simp only [horph, Option.getD, if_true, List.nil_append]
  exact recGet_recSet_same _ _ _

/-- `resolveReferencesFrom` with no references is the identity. -/
theorem resolveReferencesFrom_nil (st : ParserState) (fid : Nat) (ids : List String) :
    resolveReferencesFrom st fid [] [] ids = st := rfl

/-- After the eviction loop the queue has room for one more feature. -/
theorem enforceGo_topLevel_length (cbs : ParseCallbacks) :
    ∀ (fuel : Nat) (st : ParserState) (acc : List Emitted) (b : Nat),
      st.bufferSize = some b → 1 ≤ b → st.underConstructionTopLevel.length ≤ fuel →
      (enforceGo cbs 1 fuel st acc).1.underConstructionTopLevel.length + 1 ≤ b := by
  intro fuel
  induction fuel with
  | zero =>
    intro st acc b hb h1 hlen
    have h0 : st.underConstructionTopLevel.length = 0 := Nat.le_zero.mp hlen
    rw [enforceGo, if_neg ?_]
    · show st.underConstructionTopLevel.length + 1 ≤ b
      omega
    · rw [hb, h0, bufOver]
      simp only [decide_eq_true_eq]
      omega
  | succ fuel ih =>
    intro st acc b hb h1 hlen
    rw [enforceGo]
    by_cases hcond : bufOver st.bufferSize (st.underConstructionTopLevel.length + 1) = true
    · rw [if_pos hcond]
      cases htl : st.underConstructionTopLevel with
      | nil =>
        rw [hb, htl, bufOver] at hcond
        simp only [List.length_nil, decide_eq_true_eq] at hcond
        omega
      | cons fid rest =>
        refine ih _ _ b hb h1 ?_
        show rest.length ≤ fuel
        have hx : st.underConstructionTopLevel.length = rest.length + 1 := by
          rw [htl]; rfl
        omega
    · rw [if_neg hcond]
      show st.underConstructionTopLevel.length + 1 ≤ b
      rw [hb, bufOver] at hcond
      simp only [decide_eq_true_eq] at hcond
      omega

/-- One step of the eviction loop on a non-empty queue. -/
theorem enforceGo_step (cbs : ParseCallbacks) (add fuel : Nat) (st : ParserState)
    (acc : List Emitted) (f0 : Nat) (rest : List Nat)
    (hcond : bufOver st.bufferSize (st.underConstructionTopLevel.length + add) = true)
    (htl : st.underConstructionTopLevel = f0 :: rest) :
    enforceGo cbs add (fuel + 1) st acc = enforceGo cbs add fuel ({ st with underConstructionTopLevel := rest, underConstructionById := (unbufferItem st.lineArena st.featArena (st.featArena.length + 1) f0 st.underConstructionById st.completedReferences).1, completedReferences := (unbufferItem st.lineArena st.featArena (st.featArena.length + 1) f0 st.underConstructionById st.completedReferences).2.1, diverged := st.diverged || (unbufferItem st.lineArena st.featArena (st.featArena.length + 1) f0 st.underConstructionById st.completedReferences).2.2 }) (acc ++ (if cbs.featureCallback then [Emitted.feature ⟨st.lineArena, st.featArena⟩ f0] else [])) := by
  rw [enforceGo, if_pos hcond, htl]

/-- If the loop condition fails, the eviction loop is the identity. -/
theorem enforceGo_done (cbs : ParseCallbacks) (add fuel : Nat) (st : ParserState)
    (acc : List Emitted)
    (hcond : ¬ bufOver st.bufferSize (st.underConstructionTopLevel.length + add) = true) :
    enforceGo cbs add fuel st acc = (st, acc) := by
  rw [enforceGo, if_neg hcond]

/-- A full queue evicts exactly its oldest feature (emitted to the sink)
when one more feature is about to be created. -/
theorem enforceGo_evict_full (cbs : ParseCallbacks) (st : ParserState) (acc : List Emitted)
    (b f0 : Nat) (rest : List Nat)
    (hb : st.bufferSize = some b) (htl : st.underConstructionTopLevel = f0 :: rest)
    (hlen : rest.length + 1 = b) :
    (enforceGo cbs 1 st.underConstructionTopLevel.length st acc).1.underConstructionTopLevel
      = rest ∧
    (enforceGo cbs 1 st.underConstructionTopLevel.length st acc).2
      = acc ++ (if cbs.featureCallback
          then [Emitted.feature ⟨st.lineArena, st.featArena⟩ f0] else []) := by
  have hgt : st.underConstructionTopLevel.length = rest.length + 1 := by rw [htl]; rfl
  have hcond : bufOver st.bufferSize (st.underConstructionTopLevel.length + 1) = true := by
    rw [hb, hgt, bufOver]
    simp only [decide_eq_true_eq]
    omega
  rw [hgt] at hcond ⊢
  rw [enforceGo_step cbs 1 rest.length st acc f0 rest (by rw [hgt]; exact hcond) htl]
  rw [enforceGo_done]
  · exact ⟨rfl, rfl⟩
  · show ¬ bufOver st.bufferSize (rest.length + 1) = true
    rw [hb, bufOver]
    simp only [decide_eq_true_eq]
    omega


/-! Projection corollaries, usable as rewrite rules. -/

theorem enforceGo_fst_orphans (cbs : ParseCallbacks) (add fuel : Nat) (st : ParserState)
    (acc : List Emitted) :
    (enforceGo cbs add fuel st acc).1.underConstructionOrphans
      = st.underConstructionOrphans :=
  (enforceGo_preserves cbs add fuel st acc).2.2.2.2.2.2.2

theorem enforceGo_fst_featArena (cbs : ParseCallbacks) (add fuel : Nat) (st : ParserState)
    (acc : List Emitted) :
    (enforceGo cbs add fuel st acc).1.featArena = st.featArena :=
  (enforceGo_preserves cbs add fuel st acc).2.2.2.2.2.2.1

theorem enforceGo_fst_lineArena (cbs : ParseCallbacks) (add fuel : Nat) (st : ParserState)
    (acc : List Emitted) :
    (enforceGo cbs add fuel st acc).1.lineArena = st.lineArena :=
  (enforceGo_preserves cbs add fuel st acc).2.2.2.2.2.1

theorem enforceGo_fst_eof (cbs : ParseCallbacks) (add fuel : Nat) (st : ParserState)
    (acc : List Emitted) :
    (enforceGo cbs add fuel st acc).1.eof = st.eof :=
  (enforceGo_preserves cbs add fuel st acc).2.2.2.1

theorem enforceGo_fst_fastaParser (cbs : ParseCallbacks) (add fuel : Nat) (st : ParserState)
    (acc : List Emitted) :
    (enforceGo cbs add fuel st acc).1.fastaParser = st.fastaParser :=
  (enforceGo_preserves cbs add fuel st acc).2.2.1

theorem enforceGo_fst_bufferSize (cbs : ParseCallbacks) (add fuel : Nat) (st : ParserState)
    (acc : List Emitted) :
    (enforceGo cbs add fuel st acc).1.bufferSize = st.bufferSize :=
  (enforceGo_preserves cbs add fuel st acc).1

theorem enforceGo_fst_lineNumber (cbs : ParseCallbacks) (add fuel : Nat) (st : ParserState)
    (acc : List Emitted) :
    (enforceGo cbs add fuel st acc).1.lineNumber = st.lineNumber :=
  (enforceGo_preserves cbs add fuel st acc).2.2.2.2.1

theorem resolveReferencesTo_featArena (st : ParserState) (fid : Nat) (id : String) :
    (resolveReferencesTo st fid id).featArena = st.featArena :=
  (resolveReferencesTo_preserves st fid id).2.2.2.2.2.1

theorem resolveReferencesTo_topLevel (st : ParserState) (fid : Nat) (id : String) :
    (resolveReferencesTo st fid id).underConstructionTopLevel
      = st.underConstructionTopLevel :=
  (resolveReferencesTo_preserves st fid id).2.2.2.2.2.2.1

theorem resolveReferencesTo_byId (st : ParserState) (fid : Nat) (id : String) :
    (resolveReferencesTo st fid id).underConstructionById = st.underConstructionById :=
  (resolveReferencesTo_preserves st fid id).2.2.2.2.2.2.2.1

theorem resolveReferencesTo_eof (st : ParserState) (fid : Nat) (id : String) :
    (resolveReferencesTo st fid id).eof = st.eof :=
  (resolveReferencesTo_preserves st fid id).2.2.2.1

theorem resolveReferencesTo_fastaParser (st : ParserState) (fid : Nat) (id : String) :
    (resolveReferencesTo st fid id).fastaParser = st.fastaParser :=
  (resolveReferencesTo_preserves st fid id).2.2.1

theorem resolveReferencesTo_bufferSize (st : ParserState) (fid : Nat) (id : String) :
    (resolveReferencesTo st fid id).bufferSize = st.bufferSize :=
  (resolveReferencesTo_preserves st fid id).1

theorem resolveOneRef_byId (s : ParserState) (fid : Nat) (ids : List String)
    (rel : String) (isP : Bool) (toId : String) :
    (resolveOneRef s fid ids rel isP toId).underConstructionById
      = s.underConstructionById :=
  (resolveOneRef_preserves s fid ids rel isP toId).2.2.2.1

theorem resolveReferencesFrom_byId (st : ParserState) (fid : Nat)
    (parents derives ids : List String) :
    (resolveReferencesFrom st fid parents derives ids).underConstructionById
      = st.underConstructionById :=
  (resolveReferencesFrom_preserves st fid parents derives ids).2.2.2.1

theorem resolveReferencesFrom_topLevel (st : ParserState) (fid : Nat)
    (parents derives ids : List String) :
    (resolveReferencesFrom st fid parents derives ids).underConstructionTopLevel
      = st.underConstructionTopLevel :=
  (resolveReferencesFrom_preserves st fid parents derives ids).2.2.1

theorem resolveReferencesFrom_featArena (st : ParserState) (fid : Nat)
    (parents derives ids : List String) :
    (resolveReferencesFrom st fid parents derives ids).featArena = st.featArena :=
  (resolveReferencesFrom_preserves st fid parents derives ids).2.2.2.2.1

/-! ### C1: forward references -/

theorem recGet_recDelete_self {α : Type} (m : List (String × α)) (k : String) :
    recGet (recDelete m k) k = none := by
  induction m with
  | nil => rfl
  | cons p m ih =>
    by_cases hp : p.1 = k
    · rw [recDelete, if_pos hp]
      exact ih
    · rw [recDelete, if_neg hp, recGet, if_neg hp]
      exact ih

/-- A child line (`ID=c1;Parent=p1`) processed while `p1` is unknown files
itself in the orphan map under `p1` and registers `c1` in the by-id map. -/
theorem childLine_registers_orphan
    (cbs : ParseCallbacks) (st : ParserState) (line : String) (c1 p1 : String)
    (hf : st.fastaParser = none) (he : st.eof = false)
    (hfeat : isFeatureLineStr line = true)
    (hids : featureLineIds (parseFeature line) = [c1])
    (hpar : featureLineParents (parseFeature line) = [p1])
    (hder : featureLineDerivesRaw (parseFeature line) = [])
    (hby : recGet st.underConstructionById c1 = none)
    (hp1by : recGet st.underConstructionById p1 = none)
    (hc1orph : recGet st.underConstructionOrphans c1 = none)
    (hp1orph : recGet st.underConstructionOrphans p1 = none)
    (hne : c1 ≠ p1) :
    recGet (addLine cbs st line).state.underConstructionOrphans p1
      = some ⟨[st.featArena.length], []⟩ ∧
    recGet (addLine cbs st line).state.underConstructionById c1
      = some st.featArena.length := by
  simp only [addLine, hf, he, hfeat, if_pos trivial, if_true, bufferLine, hids, hpar, hder,
    ite_self, List.isEmpty_cons, List.isEmpty_nil, Bool.false_eq_true, eq_self_iff_true,
    and_true, true_and, and_self, false_and, and_false, if_false, List.foldl, bufferOneId,
    hby, enforceBufferSizeLimit, resolveReferencesFrom]
  constructor
  · refine resolveOneRef_orphans_value _ _ _ _ _ ?_ ?_
    · rw [resolveReferencesTo_byId]
      show recGet (recSet _ c1 _) p1 = none
      rw [recGet_recSet_ne _ _ _ _ hne]
      exact enforceGo_byId_get_none cbs 1 _ _ _ p1 hp1by
    · rw [resolveReferencesTo_orphans_get_ne _ _ _ _ hne]
      show recGet (enforceGo cbs 1 _ _ _).1.underConstructionOrphans p1 = none
      rw [enforceGo_fst_orphans]
      exact hp1orph
  · rw [resolveOneRef_byId, resolveReferencesTo_byId]
    show recGet (recSet _ c1 _) c1 = some _
    exact recGet_recSet_same _ _ _

/-- The line defining `ID=p1` resolves the orphans waiting on `p1`: the new
feature is a single location whose `child_features`/`derived_features` are
exactly the orphan reference lists, and the orphan entry is removed. -/
theorem definingLine_resolves_orphans
    (cbs : ParseCallbacks) (st : ParserState) (line : String) (p1 : String)
    (refs : References)
    (hf : st.fastaParser = none) (he : st.eof = false)
    (hfeat : isFeatureLineStr line = true)
    (hids : featureLineIds (parseFeature line) = [p1])
    (hpar : featureLineParents (parseFeature line) = [])
    (hder : featureLineDerivesRaw (parseFeature line) = [])
    (hby : recGet st.underConstructionById p1 = none)
    (horph : recGet st.underConstructionOrphans p1 = some refs) :
    recGet (addLine cbs st line).state.underConstructionById p1
      = some st.featArena.length ∧
    (addLine cbs st line).state.featArena.get? st.featArena.length
      = some [st.lineArena.length] ∧
    List.get? (addLine cbs st line).state.lineArena st.lineArena.length
      = some ⟨parseFeature line, refs.Parent, refs.Derives_from⟩ ∧
    recGet (addLine cbs st line).state.underConstructionOrphans p1 = none := by
  simp only [addLine, hf, he, hfeat, if_pos trivial, if_true, bufferLine, hids, hpar, hder,
    ite_self, List.isEmpty_cons, List.isEmpty_nil, Bool.false_eq_true, eq_self_iff_true,
    true_and, and_true, and_self, false_and, and_false, if_false, List.foldl, bufferOneId,
    hby, enforceBufferSizeLimit, resolveReferencesFrom,
    resolveReferencesTo, enforceGo_fst_orphans, horph, enforceGo_fst_featArena,
    enforceGo_fst_lineArena, list_get?_concat_length, Option.getD_some,
    listModify_concat_length, List.nil_append]
  exact ⟨recGet_recSet_same _ _ _, recGet_recDelete_self _ _⟩

/-- **C1.** Forward references resolve through the orphan map.  First
conjunct: a child line carrying `ID=c1;Parent=p1`, fed while `p1` is not yet
defined, registers its (fresh) feature in the orphan map under `p1`.
Second conjunct: when the line defining `ID=p1` is then processed, the
features waiting in the `p1` orphan entry are attached as the
`child_features` (and `derived_features`) of every location of the new `p1`
feature — which has exactly one location — and the orphan entry for `p1` is
removed. -/
theorem claim_C1_forward_reference_resolution :
    (∀ (cbs : ParseCallbacks) (st : ParserState) (line : String) (c1 p1 : String),
      st.fastaParser = none → st.eof = false → isFeatureLineStr line = true →
      featureLineIds (parseFeature line) = [c1] →
      featureLineParents (parseFeature line) = [p1] →
      featureLineDerivesRaw (parseFeature line) = [] →
      recGet st.underConstructionById c1 = none →
      recGet st.underConstructionById p1 = none →
      recGet st.underConstructionOrphans c1 = none →
      recGet st.underConstructionOrphans p1 = none →
      c1 ≠ p1 →
      recGet (addLine cbs st line).state.underConstructionOrphans p1
        = some ⟨[st.featArena.length], []⟩ ∧
      recGet (addLine cbs st line).state.underConstructionById c1
        = some st.featArena.length) ∧
    (∀ (cbs : ParseCallbacks) (st : ParserState) (line : String) (p1 : String)
      (refs : References),
      st.fastaParser = none → st.eof = false → isFeatureLineStr line = true →
      featureLineIds (parseFeature line) = [p1] →
      featureLineParents (parseFeature line) = [] →
      featureLineDerivesRaw (parseFeature line) = [] →
      recGet st.underConstructionById p1 = none →
      recGet st.underConstructionOrphans p1 = some refs →
      recGet (addLine cbs st line).state.underConstructionById p1
        = some st.featArena.length ∧
      (addLine cbs st line).state.featArena.get? st.featArena.length
        = some [st.lineArena.length] ∧
      List.get? (addLine cbs st line).state.lineArena st.lineArena.length
        = some ⟨parseFeature line, refs.Parent, refs.Derives_from⟩ ∧
      recGet (addLine cbs st line).state.underConstructionOrphans p1 = none) :=
  ⟨fun cbs st line c1 p1 hf he hfeat hids hpar hder hby hp1by hc1orph hp1orph hne =>
    childLine_registers_orphan cbs st line c1 p1 hf he hfeat hids hpar hder hby hp1by
      hc1orph hp1orph hne,
   fun cbs st line p1 refs hf he hfeat hids hpar hder hby horph =>
    definingLine_resolves_orphans cbs st line p1 refs hf he hfeat hids hpar hder hby horph⟩

/-- Witness for C1: the concrete two-line forward reference
`ID=c1;Parent=p1` before `ID=p1`. -/
theorem claim_C1_forward_reference_resolution_witness :
    recGet (addLine allCallbacks
        (addLine allCallbacks initialParserState
          "c\t.\tgene\t1\t2\t.\t.\t.\tID=c1;Parent=p1").state
        "p\t.\tgene\t1\t2\t.\t.\t.\tID=p1").state.underConstructionById "p1"
      = some 1 ∧
    (addLine allCallbacks
        (addLine allCallbacks initialParserState
          "c\t.\tgene\t1\t2\t.\t.\t.\tID=c1;Parent=p1").state
        "p\t.\tgene\t1\t2\t.\t.\t.\tID=p1").state.featArena.get? 1 = some [1] ∧
    List.get? (addLine allCallbacks
        (addLine allCallbacks initialParserState
          "c\t.\tgene\t1\t2\t.\t.\t.\tID=c1;Parent=p1").state
        "p\t.\tgene\t1\t2\t.\t.\t.\tID=p1").state.lineArena 1
      = some ⟨parseFeature "p\t.\tgene\t1\t2\t.\t.\t.\tID=p1", [0], []⟩ ∧
    recGet (addLine allCallbacks
        (addLine allCallbacks initialParserState
          "c\t.\tgene\t1\t2\t.\t.\t.\tID=c1;Parent=p1").state
        "p\t.\tgene\t1\t2\t.\t.\t.\tID=p1").state.underConstructionOrphans "p1"
      = none :=
  claim_C1_forward_reference_resolution.2 allCallbacks
    (addLine allCallbacks initialParserState
      "c\t.\tgene\t1\t2\t.\t.\t.\tID=c1;Parent=p1").state
    "p\t.\tgene\t1\t2\t.\t.\t.\tID=p1" "p1" ⟨[0], []⟩
    rfl rfl rfl rfl rfl rfl rfl rfl

/-! ### C2: dangling references at flush time -/

theorem emitAll_orphans (cbs : ParseCallbacks) (st : ParserState) :
    (emitAllUnderConstructionFeatures cbs st).state.underConstructionOrphans
      = st.underConstructionOrphans := by
  rw [emitAllUnderConstructionFeatures]
  split <;> rfl

theorem resolveReferencesFrom_orphans_mem (st : ParserState) (fid : Nat)
    (parents derives ids : List String) (t : String)
    (h : t ∈ recKeys st.underConstructionOrphans) :
    t ∈ recKeys (resolveReferencesFrom st fid parents derives ids).underConstructionOrphans := by
  rw [resolveReferencesFrom]
  exact foldl_preserve (fun s => t ∈ recKeys s.underConstructionOrphans) _
    (fun a b ha => resolveOneRef_orphans_mem a fid ids "Derives_from" false b t ha) derives _
    (foldl_preserve (fun s => t ∈ recKeys s.underConstructionOrphans) _
      (fun a b ha => resolveOneRef_orphans_mem a fid ids "Parent" true b t ha) parents st h)

theorem bufferOneId_orphans_mem (cbs : ParseCallbacks) (raw : GFF3FeatureLine)
    (lid : Nat) (parents derives : List String)
    (acc : ParserState × List Emitted × Option Nat) (id t : String) (hne : id ≠ t)
    (h : t ∈ recKeys acc.1.underConstructionOrphans) :
    t ∈ recKeys (bufferOneId cbs raw lid parents derives acc id).1.underConstructionOrphans := by
  simp only [bufferOneId]
  split
  · -- existing feature: only the feature arena (and possibly eof) changes
    split
    · split
      · exact h
      · exact h
    · exact h
  · -- fresh feature
    refine resolveReferencesTo_orphans_mem_ne _ _ _ _ hne ?_
    by_cases hp : parents.isEmpty = true ∧ derives.isEmpty = true
    · simp only [if_pos hp, enforceBufferSizeLimit, enforceGo_fst_orphans]
      exact h
    · simp only [if_neg hp, enforceBufferSizeLimit, enforceGo_fst_orphans]
      exact h

theorem bufferIds_orphans_mem (cbs : ParseCallbacks) (raw : GFF3FeatureLine)
    (lid : Nat) (parents derives : List String) :
    ∀ (ids : List String) (acc : ParserState × List Emitted × Option Nat) (t : String),
      (∀ id ∈ ids, id ≠ t) →
      t ∈ recKeys acc.1.underConstructionOrphans →
      t ∈ recKeys
        (List.foldl (bufferOneId cbs raw lid parents derives) acc
          ids).1.underConstructionOrphans
  | [], _, _, _, h => h
  | id :: ids, acc, t, hne, h =>
    bufferIds_orphans_mem cbs raw lid parents derives ids _ t
      (fun i hi => hne i (List.mem_cons_of_mem id hi))
      (bufferOneId_orphans_mem cbs raw lid parents derives acc id t
        (hne id (List.mem_cons_self id ids)) h)

theorem bufferLine_orphans_mem (cbs : ParseCallbacks) (st : ParserState) (line : String)
    (t : String) (hids : t ∉ featureLineIds (parseFeature line))
    (h : t ∈ recKeys st.underConstructionOrphans) :
    t ∈ recKeys (bufferLine cbs st line).1.underConstructionOrphans := by
  cases hd : st.disableDerivesFromReferences
  all_goals simp only [bufferLine, hd, Bool.false_eq_true, if_false, if_true]
  all_goals split
  all_goals try exact h
  all_goals split
  all_goals refine resolveReferencesFrom_orphans_mem _ _ _ _ _ _ ?_
  all_goals apply bufferIds_orphans_mem
  all_goals first
    | exact h
    | (intro i hi hEq
       exact hids (hEq ▸ hi))

theorem addLine_orphans_mem (cbs : ParseCallbacks) (st : ParserState) (line : String)
    (t : String) (hids : t ∉ featureLineIds (parseFeature line))
    (h : t ∈ recKeys st.underConstructionOrphans) :
    t ∈ recKeys (addLine cbs st line).state.underConstructionOrphans := by
  simp only [addLine]
  split
  · exact h
  · split
    · exact h
    · split
      · exact bufferLine_orphans_mem cbs _ line t hids h
      · split
        · split
          · rw [emitAll_orphans]
            exact h
          · split
            · split
              · split
                · split
                  · rw [emitAll_orphans]
                    exact h
                  · show t ∈ recKeys (emitAllUnderConstructionFeatures _ _).state.underConstructionOrphans
                    rw [emitAll_orphans]
                    exact h
                · exact h
              · exact h
            · exact h
        · split
          · exact h
          · split
            · split
              · rw [emitAll_orphans]
                exact h
              · show t ∈ recKeys (emitAllUnderConstructionFeatures _ _).state.underConstructionOrphans
                rw [emitAll_orphans]
                exact h
            · exact h

theorem runLines_orphans_mem (cbs : ParseCallbacks) :
    ∀ (lines : List String) (st : ParserState) (t : String),
      (∀ l ∈ lines, t ∉ featureLineIds (parseFeature l)) →
      t ∈ recKeys st.underConstructionOrphans →
      t ∈ recKeys (runLines cbs st lines).underConstructionOrphans
  | [], _, _, _, h => h
  | l :: ls, st, t, hl, h =>
    runLines_orphans_mem cbs ls _ t (fun l' hl' => hl l' (List.mem_cons_of_mem l hl'))
      (addLine_orphans_mem cbs st l t (hl l (List.mem_cons_self l ls)) h)

theorem finish_orphan_throw (cbs : ParseCallbacks) (st : ParserState) (t : String)
    (hf : st.fastaParser = none)
    (h : t ∈ recKeys st.underConstructionOrphans) :
    (finish cbs st).thrown
      = some (refErrorMessage (recKeys st.underConstructionOrphans)) ∧
    (finish cbs st).emitted
      = (if cbs.featureCallback then
          st.underConstructionTopLevel.map (Emitted.feature ⟨st.lineArena, st.featArena⟩)
         else []) ∧
    (finish cbs st).state.underConstructionTopLevel = [] ∧
    (finish cbs st).state.underConstructionById = [] ∧
    (finish cbs st).state.completedReferences = [] := by
  rw [mem_recKeys_iff_isSome] at h
  have hne : st.underConstructionOrphans.isEmpty = false := by
    cases ho : st.underConstructionOrphans with
    | nil =>
      rw [ho] at h
      simp [recGet] at h
    | cons p m => rfl
  rw [finish]
  simp only [emitAllUnderConstructionFeatures, hne, Bool.false_eq_true, if_false]
  exact ⟨trivial, trivial, trivial, trivial, trivial⟩

/-- **C2.** Dangling references are reported at flush time.  First conjunct:
a feature line whose `Parent` names an identifier `t` that is not (yet)
defined leaves `t` in the orphan map.  Second conjunct: the orphan entry
survives every subsequent line that does not carry `ID=t`, to end of input.
Third conjunct: flushing such a state throws the referential-integrity
error naming the orphan keys (so the missing identifier `t` is among them),
after emitting every remaining buffered top-level feature in queue order and
clearing the by-id map, the top-level queue and the completed-link set. -/
theorem claim_C2_dangling_reference_flush_error :
    (∀ (cbs : ParseCallbacks) (st : ParserState) (line : String) (c1 t : String),
      st.fastaParser = none → st.eof = false → isFeatureLineStr line = true →
      featureLineIds (parseFeature line) = [c1] →
      featureLineParents (parseFeature line) = [t] →
      featureLineDerivesRaw (parseFeature line) = [] →
      recGet st.underConstructionById c1 = none →
      recGet st.underConstructionById t = none →
      recGet st.underConstructionOrphans c1 = none →
      recGet st.underConstructionOrphans t = none →
      c1 ≠ t →
      t ∈ recKeys (addLine cbs st line).state.underConstructionOrphans) ∧
    (∀ (cbs : ParseCallbacks) (lines : List String) (st : ParserState) (t : String),
      (∀ l ∈ lines, t ∉ featureLineIds (parseFeature l)) →
      t ∈ recKeys st.underConstructionOrphans →
      t ∈ recKeys (runLines cbs st lines).underConstructionOrphans) ∧
    (∀ (cbs : ParseCallbacks) (st : ParserState) (t : String),
      st.fastaParser = none →
      t ∈ recKeys st.underConstructionOrphans →
      (finish cbs st).thrown
        = some (refErrorMessage (recKeys st.underConstructionOrphans)) ∧
      t ∈ recKeys st.underConstructionOrphans ∧
      (finish cbs st).emitted
        = (if cbs.featureCallback then
            st.underConstructionTopLevel.map (Emitted.feature ⟨st.lineArena, st.featArena⟩)
           else []) ∧
      (finish cbs st).state.underConstructionTopLevel = [] ∧
      (finish cbs st).state.underConstructionById = [] ∧
      (finish cbs st).state.completedReferences = []) := by
  refine ⟨?_, ?_, ?_⟩
  · intro cbs st line c1 t hf he hfeat hids hpar hder hby htby hc1o hto hne
    rw [mem_recKeys_iff_isSome,
      (childLine_registers_orphan cbs st line c1 t hf he hfeat hids hpar hder hby htby
        hc1o hto hne).1]
    rfl
  · intro cbs lines st t hl h
    exact runLines_orphans_mem cbs lines st t hl h
  · intro cbs st t hf h
    have r := finish_orphan_throw cbs st t hf h
    exact ⟨r.1, h, r.2.1, r.2.2.1, r.2.2.2.1, r.2.2.2.2⟩

/-- Witness for C2: a single child line referencing the never-defined `p1`,
followed by a comment line, then a flush. -/
theorem claim_C2_dangling_reference_flush_error_witness :
    "p1" ∈ recKeys (addLine allCallbacks initialParserState
        "c\t.\tgene\t1\t2\t.\t.\t.\tID=c1;Parent=p1").state.underConstructionOrphans ∧
    "p1" ∈ recKeys (runLines allCallbacks
        (addLine allCallbacks initialParserState
          "c\t.\tgene\t1\t2\t.\t.\t.\tID=c1;Parent=p1").state
        ["# note"]).underConstructionOrphans ∧
    (finish allCallbacks (addLine allCallbacks initialParserState
        "c\t.\tgene\t1\t2\t.\t.\t.\tID=c1;Parent=p1").state).thrown
      = some (refErrorMessage (recKeys (addLine allCallbacks initialParserState
          "c\t.\tgene\t1\t2\t.\t.\t.\tID=c1;Parent=p1").state.underConstructionOrphans)) := by
  refine ⟨?_, ?_, ?_⟩
  · exact claim_C2_dangling_reference_flush_error.1 allCallbacks initialParserState
      "c\t.\tgene\t1\t2\t.\t.\t.\tID=c1;Parent=p1" "c1" "p1"
      rfl rfl rfl rfl rfl rfl rfl rfl rfl rfl (by decide)
  · exact claim_C2_dangling_reference_flush_error.2.1 allCallbacks ["# note"] _ "p1"
      (by decide) (by decide)
  · exact (claim_C2_dangling_reference_flush_error.2.2 allCallbacks _ "p1" rfl
      (by decide)).1

/-! ### C3: bufferSize 1 FIFO eviction -/

/-- Evaluate one eviction on a `bufferSize = 1` parser whose queue holds the
single feature `f0` (one location, one non-empty id, no children): the
feature is emitted and purged from the by-id map and the completed-link
set. -/
theorem enforceGo_evict_one (cbs : ParseCallbacks) (acc : List Emitted)
    (bs : Option Nat) (ddr : Bool) (fp : Option FASTAState) (eo : Bool) (ln : Nat)
    (la : List LineRec) (fa : List (List Nat)) (tl : List Nat)
    (byId : List (String × Nat)) (comp : CompletedMap)
    (orph : List (String × References)) (dv : Bool)
    (fuel f0 lid0 : Nat) (rec0 : LineRec) (i1 : String)
    (hb : bs = some 1) (htl : tl = [f0]) (hfuel : 1 ≤ fuel)
    (hfa : fa.get? f0 = some [lid0]) (hla : List.get? la lid0 = some rec0)
    (hids : featureLineIds rec0.data = [i1]) (hne : ¬ i1 = "")
    (hch : rec0.child_features = []) (hdf : rec0.derived_features = []) :
    enforceGo cbs 1 fuel ⟨bs, ddr, fp, eo, ln, la, fa, tl, byId, comp, orph, dv⟩ acc
      = (⟨bs, ddr, fp, eo, ln, la, fa, [], recDelete byId i1, recDelete comp i1, orph, dv⟩,
         acc ++ (if cbs.featureCallback then [Emitted.feature ⟨la, fa⟩ f0] else [])) := by
  subst hb
  subst htl
  have hub : unbufferItem la fa (fa.length + 1) f0 byId comp
      = (recDelete byId i1, recDelete comp i1, false) := by
    rw [unbufferItem]
    simp only [hfa, Option.getD_some, List.head?_cons, hla, hids, hch, hdf, List.foldl,
      if_neg hne]
  cases fuel with
  | zero => omega
  | succ k =>
    rw [enforceGo_step cbs 1 k ⟨some 1, ddr, fp, eo, ln, la, fa, [f0], byId, comp, orph, dv⟩
      acc f0 [] rfl rfl]
    rw [enforceGo_done]
    · simp only [hub, Bool.or_false]
    · show ¬ bufOver (some 1) (0 + 1) = true
      decide

/-- Feeding a fresh single-id feature line to a `bufferSize = 1` parser whose
queue already holds one feature evicts that older feature: it is emitted to
the sink and purged from the by-id map and completed-link set, and the new
feature takes its place in the queue. -/
theorem addLine_second_evicts (cbs : ParseCallbacks) (st : ParserState) (line : String)
    (i1 i2 : String) (f0 lid0 : Nat) (rec0 : LineRec)
    (hf : st.fastaParser = none) (he : st.eof = false)
    (hfeat : isFeatureLineStr line = true)
    (hids2 : featureLineIds (parseFeature line) = [i2])
    (hpar2 : featureLineParents (parseFeature line) = [])
    (hder2 : featureLineDerivesRaw (parseFeature line) = [])
    (hb : st.bufferSize = some 1)
    (htl : st.underConstructionTopLevel = [f0])
    (hfa : st.featArena.get? f0 = some [lid0])
    (hla : List.get? st.lineArena lid0 = some rec0)
    (hids1 : featureLineIds rec0.data = [i1]) (hne1 : ¬ i1 = "")
    (hch : rec0.child_features = []) (hdf : rec0.derived_features = [])
    (hby2 : recGet st.underConstructionById i2 = none)
    (horph2 : recGet st.underConstructionOrphans i2 = none)
    (hne12 : i1 ≠ i2) :
    (addLine cbs st line).emitted
      = (if cbs.featureCallback then
          [Emitted.feature ⟨st.lineArena ++ [⟨parseFeature line, [], []⟩],
            st.featArena ++ [[st.lineArena.length]]⟩ f0]
         else []) ∧
    recGet (addLine cbs st line).state.underConstructionById i1 = none ∧
    recGet (addLine cbs st line).state.completedReferences i1 = none ∧
    (addLine cbs st line).state.underConstructionTopLevel = [st.featArena.length] ∧
    (addLine cbs st line).thrown = none := by
  have hlt : f0 < st.featArena.length := by
    by_contra hge
    rw [List.get?_eq_none.mpr (Nat.le_of_not_lt hge)] at hfa
    exact Option.noConfusion hfa
  have hlt2 : lid0 < st.lineArena.length := by
    by_contra hge
    rw [List.get?_eq_none.mpr (Nat.le_of_not_lt hge)] at hla
    exact Option.noConfusion hla
  have hfa' : (st.featArena ++ [[st.lineArena.length]]).get? f0 = some [lid0] := by
    rw [List.get?_append hlt]
    exact hfa
  have hla' : List.get? (st.lineArena ++ [⟨parseFeature line, [], []⟩]) lid0 = some rec0 := by
    rw [List.get?_append hlt2]
    exact hla
  have hfuel : 1 ≤ st.underConstructionTopLevel.length := by
    rw [htl]
    exact Nat.le_refl 1
  simp only [addLine, hf, he, hfeat, if_pos trivial, if_true, bufferLine, hids2, hpar2, hder2,
    ite_self, List.isEmpty_cons, List.isEmpty_nil, Bool.false_eq_true, eq_self_iff_true,
    and_true, true_and, and_self, false_and, and_false, if_false, List.foldl, bufferOneId,
    hby2, enforceBufferSizeLimit, resolveReferencesFrom]
  rw [enforceGo_evict_one cbs [] st.bufferSize st.disableDerivesFromReferences none false
    (st.lineNumber + 1) (st.lineArena ++ [LineRec.mk (parseFeature line) [] []])
    (st.featArena ++ [[st.lineArena.length]]) st.underConstructionTopLevel
    st.underConstructionById st.completedReferences st.underConstructionOrphans st.diverged
    st.underConstructionTopLevel.length f0 lid0 rec0 i1 hb htl hfuel hfa' hla' hids1 hne1
    hch hdf]
  simp only [resolveReferencesTo, horph2, List.foldl, List.nil_append]
  refine ⟨trivial, ?_, ?_, trivial⟩
  · rw [recGet_recSet_ne _ _ _ _ (Ne.symm hne12)]
    exact recGet_recDelete_self _ _
  · exact recGet_recDelete_self _ _

/-- **C3.** `bufferSize = 1` FIFO eviction.  First conjunct: feeding a fresh
single-id feature line to a parser with `bufferSize = 1` whose queue already
holds one feature emits that older feature to the sink, purges its id from
the by-id map and the completed-link set, and leaves the new feature as the
only queued one — so with three distinct-id lines the first feature is
emitted and purged while the second line is processed, before the third line
is seen.  Second conjunct: an eviction pass on a full queue always shifts
the oldest (front) entry: the emitted feature is the queue head and the
remaining queue is the tail. -/
theorem claim_C3_bufferSize_one_fifo :
    (∀ (cbs : ParseCallbacks) (st : ParserState) (line : String)
       (i1 i2 : String) (f0 lid0 : Nat) (rec0 : LineRec),
      st.fastaParser = none → st.eof = false → isFeatureLineStr line = true →
      featureLineIds (parseFeature line) = [i2] →
      featureLineParents (parseFeature line) = [] →
      featureLineDerivesRaw (parseFeature line) = [] →
      st.bufferSize = some 1 →
      st.underConstructionTopLevel = [f0] →
      st.featArena.get? f0 = some [lid0] →
      List.get? st.lineArena lid0 = some rec0 →
      featureLineIds rec0.data = [i1] → ¬ i1 = "" →
      rec0.child_features = [] → rec0.derived_features = [] →
      recGet st.underConstructionById i2 = none →
      recGet st.underConstructionOrphans i2 = none →
      i1 ≠ i2 →
      (addLine cbs st line).emitted
        = (if cbs.featureCallback then
            [Emitted.feature ⟨st.lineArena ++ [⟨parseFeature line, [], []⟩],
              st.featArena ++ [[st.lineArena.length]]⟩ f0]
           else []) ∧
      recGet (addLine cbs st line).state.underConstructionById i1 = none ∧
      recGet (addLine cbs st line).state.completedReferences i1 = none ∧
      (addLine cbs st line).state.underConstructionTopLevel = [st.featArena.length] ∧
      (addLine cbs st line).thrown = none) ∧
    (∀ (cbs : ParseCallbacks) (st : ParserState) (acc : List Emitted) (b f0 : Nat)
       (rest : List Nat),
      st.bufferSize = some b → st.underConstructionTopLevel = f0 :: rest →
      rest.length + 1 = b →
      (enforceGo cbs 1 st.underConstructionTopLevel.length st
          acc).1.underConstructionTopLevel = rest ∧
      (enforceGo cbs 1 st.underConstructionTopLevel.length st acc).2
        = acc ++ (if cbs.featureCallback
            then [Emitted.feature ⟨st.lineArena, st.featArena⟩ f0] else [])) :=
  ⟨fun cbs st line i1 i2 f0 lid0 rec0 hf he hfeat hids2 hpar2 hder2 hb htl hfa hla hids1
      hne1 hch hdf hby2 horph2 hne12 =>
    addLine_second_evicts cbs st line i1 i2 f0 lid0 rec0 hf he hfeat hids2 hpar2 hder2 hb
      htl hfa hla hids1 hne1 hch hdf hby2 horph2 hne12,
   fun cbs st acc b f0 rest hb htl hlen =>
    enforceGo_evict_full cbs st acc b f0 rest hb htl hlen⟩

/-- Witness for C3: a `bufferSize = 1` parser fed `ID=i1` then `ID=i2`. -/
theorem claim_C3_bufferSize_one_fifo_witness :
    ((addLine allCallbacks
        (addLine allCallbacks (initialParserState (some 1) false)
          "a\t.\tgene\t1\t2\t.\t.\t.\tID=i1").state
        "b\t.\tgene\t1\t2\t.\t.\t.\tID=i2").emitted
      = (if allCallbacks.featureCallback then
          [Emitted.feature
            ⟨(addLine allCallbacks (initialParserState (some 1) false)
                "a\t.\tgene\t1\t2\t.\t.\t.\tID=i1").state.lineArena
              ++ [⟨parseFeature "b\t.\tgene\t1\t2\t.\t.\t.\tID=i2", [], []⟩],
             (addLine allCallbacks (initialParserState (some 1) false)
                "a\t.\tgene\t1\t2\t.\t.\t.\tID=i1").state.featArena
              ++ [[(addLine allCallbacks (initialParserState (some 1) false)
                    "a\t.\tgene\t1\t2\t.\t.\t.\tID=i1").state.lineArena.length]]⟩ 0]
         else []) ∧
     recGet (addLine allCallbacks
        (addLine allCallbacks (initialParserState (some 1) false)
          "a\t.\tgene\t1\t2\t.\t.\t.\tID=i1").state
        "b\t.\tgene\t1\t2\t.\t.\t.\tID=i2").state.underConstructionById "i1" = none ∧
     recGet (addLine allCallbacks
        (addLine allCallbacks (initialParserState (some 1) false)
          "a\t.\tgene\t1\t2\t.\t.\t.\tID=i1").state
        "b\t.\tgene\t1\t2\t.\t.\t.\tID=i2").state.completedReferences "i1" = none ∧
     (addLine allCallbacks
        (addLine allCallbacks (initialParserState (some 1) false)
          "a\t.\tgene\t1\t2\t.\t.\t.\tID=i1").state
        "b\t.\tgene\t1\t2\t.\t.\t.\tID=i2").state.underConstructionTopLevel
      = [(addLine allCallbacks (initialParserState (some 1) false)
            "a\t.\tgene\t1\t2\t.\t.\t.\tID=i1").state.featArena.length] ∧
     (addLine allCallbacks
        (addLine allCallbacks (initialParserState (some 1) false)
          "a\t.\tgene\t1\t2\t.\t.\t.\tID=i1").state
        "b\t.\tgene\t1\t2\t.\t.\t.\tID=i2").thrown = none) ∧
    ((enforceGo allCallbacks 1
        (addLine allCallbacks (initialParserState (some 1) false)
          "a\t.\tgene\t1\t2\t.\t.\t.\tID=i1").state.underConstructionTopLevel.length
        (addLine allCallbacks (initialParserState (some 1) false)
          "a\t.\tgene\t1\t2\t.\t.\t.\tID=i1").state
        []).1.underConstructionTopLevel = [] ∧
     (enforceGo allCallbacks 1
        (addLine allCallbacks (initialParserState (some 1) false)
          "a\t.\tgene\t1\t2\t.\t.\t.\tID=i1").state.underConstructionTopLevel.length
        (addLine allCallbacks (initialParserState (some 1) false)
          "a\t.\tgene\t1\t2\t.\t.\t.\tID=i1").state
        []).2
      = [] ++ (if allCallbacks.featureCallback
          then [Emitted.feature
            ⟨(addLine allCallbacks (initialParserState (some 1) false)
                "a\t.\tgene\t1\t2\t.\t.\t.\tID=i1").state.lineArena,
             (addLine allCallbacks (initialParserState (some 1) false)
                "a\t.\tgene\t1\t2\t.\t.\t.\tID=i1").state.featArena⟩ 0]
          else [])) :=
  ⟨claim_C3_bufferSize_one_fifo.1 allCallbacks
    (addLine allCallbacks (initialParserState (some 1) false)
      "a\t.\tgene\t1\t2\t.\t.\t.\tID=i1").state
    "b\t.\tgene\t1\t2\t.\t.\t.\tID=i2" "i1" "i2" 0 0
    ⟨parseFeature "a\t.\tgene\t1\t2\t.\t.\t.\tID=i1", [], []⟩
    rfl rfl rfl rfl rfl rfl rfl rfl rfl rfl rfl (by decide) rfl rfl rfl rfl (by decide),
   claim_C3_bufferSize_one_fifo.2 allCallbacks
    (addLine allCallbacks (initialParserState (some 1) false)
      "a\t.\tgene\t1\t2\t.\t.\t.\tID=i1").state
    [] 1 0 [] rfl rfl rfl⟩

/-! ### C10: the buffer-size invariant and eviction before insertion -/

/-- `enforceGo_evict_full` with the fuel decoupled from the queue length
(any positive fuel suffices for the single eviction step). -/
theorem enforceGo_evict_full_fuel (cbs : ParseCallbacks) (st : ParserState)
    (acc : List Emitted) (fuel b f0 : Nat) (rest : List Nat)
    (hb : st.bufferSize = some b) (htl : st.underConstructionTopLevel = f0 :: rest)
    (hlen : rest.length + 1 = b) (hfuel : 1 ≤ fuel) :
    (enforceGo cbs 1 fuel st acc).1.underConstructionTopLevel = rest ∧
    (enforceGo cbs 1 fuel st acc).2
      = acc ++ (if cbs.featureCallback
          then [Emitted.feature ⟨st.lineArena, st.featArena⟩ f0] else []) := by
  cases fuel with
  | zero => omega
  | succ k =>
    rw [enforceGo_step cbs 1 k st acc f0 rest ?hcond htl]
    rw [enforceGo_done]
    · exact ⟨rfl, rfl⟩
    · show ¬ bufOver st.bufferSize (rest.length + 1) = true
      rw [hb, bufOver]
      simp only [decide_eq_true_eq]
      omega
    case hcond =>
      rw [hb, htl, bufOver]
      simp only [decide_eq_true_eq, List.length_cons]
      omega

theorem emitAll_bufferSize (cbs : ParseCallbacks) (st : ParserState) :
    (emitAllUnderConstructionFeatures cbs st).state.bufferSize = st.bufferSize := by
  rw [emitAllUnderConstructionFeatures]
  split <;> rfl

theorem emitAll_topLevel (cbs : ParseCallbacks) (st : ParserState) :
    (emitAllUnderConstructionFeatures cbs st).state.underConstructionTopLevel = [] := by
  rw [emitAllUnderConstructionFeatures]
  split <;> rfl

theorem resolveFrom_bound (st : ParserState) (fid : Nat)
    (parents derives ids : List String) (b : Nat)
    (hb : st.bufferSize = some b)
    (hlen : st.underConstructionTopLevel.length ≤ b) :
    (resolveReferencesFrom st fid parents derives ids).bufferSize = some b ∧
    (resolveReferencesFrom st fid parents derives
        ids).underConstructionTopLevel.length ≤ b := by
  constructor
  · rw [(resolveReferencesFrom_preserves st fid parents derives ids).2.2.2.2.2.2.1]
    exact hb
  · rw [(resolveReferencesFrom_preserves st fid parents derives ids).2.2.1]
    exact hlen

theorem bufferOneId_bound (cbs : ParseCallbacks) (raw : GFF3FeatureLine) (lid : Nat)
    (parents derives : List String) (b : Nat) (h1 : 1 ≤ b)
    (acc : ParserState × List Emitted × Option Nat) (id : String)
    (hb : acc.1.bufferSize = some b)
    (hlen : acc.1.underConstructionTopLevel.length ≤ b) :
    (bufferOneId cbs raw lid parents derives acc id).1.bufferSize = some b ∧
    (bufferOneId cbs raw lid parents derives acc
        id).1.underConstructionTopLevel.length ≤ b := by
  have hE := enforceGo_topLevel_length cbs acc.1.underConstructionTopLevel.length
    ⟨acc.1.bufferSize, acc.1.disableDerivesFromReferences, acc.1.fastaParser, acc.1.eof,
      acc.1.lineNumber, acc.1.lineArena, acc.1.featArena ++ [[lid]],
      acc.1.underConstructionTopLevel, acc.1.underConstructionById,
      acc.1.completedReferences, acc.1.underConstructionOrphans, acc.1.diverged⟩ [] b hb h1 (Nat.le_refl _)
  simp only [bufferOneId]
  split
  · split
    · split
      · exact ⟨hb, hlen⟩
      · exact ⟨hb, hlen⟩
    · exact ⟨hb, hlen⟩
  · constructor
    · rw [resolveReferencesTo_bufferSize]
      split
      · show (enforceGo cbs 1 _ _ _).1.bufferSize = some b
        rw [enforceGo_fst_bufferSize]
        exact hb
      · show (enforceGo cbs 1 _ _ _).1.bufferSize = some b
        rw [enforceGo_fst_bufferSize]
        exact hb
    · rw [resolveReferencesTo_topLevel]
      split
      · show ((enforceGo cbs 1 acc.1.underConstructionTopLevel.length
            ⟨acc.1.bufferSize, acc.1.disableDerivesFromReferences, acc.1.fastaParser, acc.1.eof,
      acc.1.lineNumber, acc.1.lineArena, acc.1.featArena ++ [[lid]],
      acc.1.underConstructionTopLevel, acc.1.underConstructionById,
      acc.1.completedReferences, acc.1.underConstructionOrphans, acc.1.diverged⟩
            []).1.underConstructionTopLevel ++ [acc.1.featArena.length]).length ≤ b
        rw [List.length_append]
        simp only [List.length_singleton]
        omega
      · show (enforceGo cbs 1 acc.1.underConstructionTopLevel.length
            ⟨acc.1.bufferSize, acc.1.disableDerivesFromReferences, acc.1.fastaParser, acc.1.eof,
      acc.1.lineNumber, acc.1.lineArena, acc.1.featArena ++ [[lid]],
      acc.1.underConstructionTopLevel, acc.1.underConstructionById,
      acc.1.completedReferences, acc.1.underConstructionOrphans, acc.1.diverged⟩
            []).1.underConstructionTopLevel.length ≤ b
        omega

theorem bufferIds_bound (cbs : ParseCallbacks) (raw : GFF3FeatureLine) (lid : Nat)
    (parents derives : List String) (b : Nat) (h1 : 1 ≤ b) :
    ∀ (ids : List String) (acc : ParserState × List Emitted × Option Nat),
      acc.1.bufferSize = some b →
      acc.1.underConstructionTopLevel.length ≤ b →
      (List.foldl (bufferOneId cbs raw lid parents derives) acc ids).1.bufferSize
        = some b ∧
      (List.foldl (bufferOneId cbs raw lid parents derives) acc
          ids).1.underConstructionTopLevel.length ≤ b
  | [], _, hb, hlen => ⟨hb, hlen⟩
  | id :: ids, acc, hb, hlen =>
    let h := bufferOneId_bound cbs raw lid parents derives b h1 acc id hb hlen
    bufferIds_bound cbs raw lid parents derives b h1 ids _ h.1 h.2

theorem bufferIds_bufferSize (cbs : ParseCallbacks) (raw : GFF3FeatureLine) (lid : Nat)
    (parents derives : List String) (b : Nat) (ids : List String)
    (acc : ParserState × List Emitted × Option Nat) (h1 : 1 ≤ b)
    (hb : acc.1.bufferSize = some b)
    (hlen : acc.1.underConstructionTopLevel.length ≤ b) :
    (List.foldl (bufferOneId cbs raw lid parents derives) acc ids).1.bufferSize
      = some b :=
  (bufferIds_bound cbs raw lid parents derives b h1 ids acc hb hlen).1

theorem bufferIds_topLevel_le (cbs : ParseCallbacks) (raw : GFF3FeatureLine) (lid : Nat)
    (parents derives : List String) (b : Nat) (ids : List String)
    (acc : ParserState × List Emitted × Option Nat) (h1 : 1 ≤ b)
    (hb : acc.1.bufferSize = some b)
    (hlen : acc.1.underConstructionTopLevel.length ≤ b) :
    (List.foldl (bufferOneId cbs raw lid parents derives) acc
        ids).1.underConstructionTopLevel.length ≤ b :=
  (bufferIds_bound cbs raw lid parents derives b h1 ids acc hb hlen).2

theorem bufferLine_bound (cbs : ParseCallbacks) (st : ParserState) (line : String)
    (b : Nat) (h1 : 1 ≤ b) (hb : st.bufferSize = some b)
    (hlen : st.underConstructionTopLevel.length ≤ b) :
    (bufferLine cbs st line).1.bufferSize = some b ∧
    (bufferLine cbs st line).1.underConstructionTopLevel.length ≤ b := by
  cases hd : st.disableDerivesFromReferences
  all_goals simp only [bufferLine, hd, Bool.false_eq_true, if_false, if_true]
  all_goals split
  all_goals try exact ⟨hb, hlen⟩
  all_goals split
  all_goals apply resolveFrom_bound
  all_goals first
    | (apply bufferIds_bufferSize <;> first | exact h1 | exact hb | exact hlen)
    | (apply bufferIds_topLevel_le <;> first | exact h1 | exact hb | exact hlen)

theorem addLine_bound (cbs : ParseCallbacks) (st : ParserState) (line : String)
    (b : Nat) (h1 : 1 ≤ b) (hb : st.bufferSize = some b)
    (hlen : st.underConstructionTopLevel.length ≤ b) :
    (addLine cbs st line).state.bufferSize = some b ∧
    (addLine cbs st line).state.underConstructionTopLevel.length ≤ b := by
  simp only [addLine]
  split
  · exact ⟨hb, hlen⟩
  · split
    · exact ⟨hb, hlen⟩
    · split
      · exact bufferLine_bound cbs _ line b h1 hb hlen
      · split
        · split
          · refine ⟨?_, ?_⟩
            · rw [emitAll_bufferSize]
              exact hb
            · rw [emitAll_topLevel]
              exact Nat.zero_le b
          · split
            · split
              · split
                · split
                  · refine ⟨?_, ?_⟩
                    · rw [emitAll_bufferSize]
                      exact hb
                    · rw [emitAll_topLevel]
                      exact Nat.zero_le b
                  · refine ⟨?_, ?_⟩
                    · show (emitAllUnderConstructionFeatures _ _).state.bufferSize = some b
                      rw [emitAll_bufferSize]
                      exact hb
                    · show (emitAllUnderConstructionFeatures
                          _ _).state.underConstructionTopLevel.length ≤ b
                      rw [emitAll_topLevel]
                      exact Nat.zero_le b
                · exact ⟨hb, hlen⟩
              · exact ⟨hb, hlen⟩
            · exact ⟨hb, hlen⟩
        · split
          · exact ⟨hb, hlen⟩
          · split
            · split
              · refine ⟨?_, ?_⟩
                · rw [emitAll_bufferSize]
                  exact hb
                · rw [emitAll_topLevel]
                  exact Nat.zero_le b
              · refine ⟨?_, ?_⟩
                · show (emitAllUnderConstructionFeatures _ _).state.bufferSize = some b
                  rw [emitAll_bufferSize]
                  exact hb
                · show (emitAllUnderConstructionFeatures
                      _ _).state.underConstructionTopLevel.length ≤ b
                  rw [emitAll_topLevel]
                  exact Nat.zero_le b
            · exact ⟨hb, hlen⟩

theorem runLines_bound (cbs : ParseCallbacks) (b : Nat) (h1 : 1 ≤ b) :
    ∀ (lines : List String) (st : ParserState),
      st.bufferSize = some b →
      st.underConstructionTopLevel.length ≤ b →
      (runLines cbs st lines).bufferSize = some b ∧
      (runLines cbs st lines).underConstructionTopLevel.length ≤ b
  | [], _, hb, hlen => ⟨hb, hlen⟩
  | l :: ls, st, hb, hlen =>
    let h := addLine_bound cbs st l b h1 hb hlen
    runLines_bound cbs b h1 ls _ h.1 h.2

/-- Eviction runs before the insertion of a newly identified feature even
when that feature carries a `Parent` and is therefore never enqueued as
top-level: a fresh-id parented line fed to a full queue still evicts and
emits the oldest queued feature, and the queue shrinks to its tail. -/
theorem addLine_parented_evicts (cbs : ParseCallbacks) (st : ParserState) (line : String)
    (t i2 : String) (b f0 : Nat) (rest : List Nat)
    (hf : st.fastaParser = none) (he : st.eof = false)
    (hfeat : isFeatureLineStr line = true)
    (hids2 : featureLineIds (parseFeature line) = [i2])
    (hpar2 : featureLineParents (parseFeature line) = [t])
    (hder2 : featureLineDerivesRaw (parseFeature line) = [])
    (hb : st.bufferSize = some b)
    (htl : st.underConstructionTopLevel = f0 :: rest)
    (hlen : rest.length + 1 = b)
    (hby2 : recGet st.underConstructionById i2 = none) :
    (addLine cbs st line).state.underConstructionTopLevel = rest ∧
    (addLine cbs st line).emitted
      = (if cbs.featureCallback then
          [Emitted.feature ⟨st.lineArena ++ [⟨parseFeature line, [], []⟩],
            st.featArena ++ [[st.lineArena.length]]⟩ f0]
         else []) := by
  have hfuel : 1 ≤ st.underConstructionTopLevel.length := by
    rw [htl]
    exact Nat.succ_le_succ (Nat.zero_le _)
  have hE := enforceGo_evict_full_fuel cbs
    ⟨st.bufferSize, st.disableDerivesFromReferences, none, false, st.lineNumber + 1,
      st.lineArena ++ [LineRec.mk (parseFeature line) [] []],
      st.featArena ++ [[st.lineArena.length]], st.underConstructionTopLevel,
      st.underConstructionById, st.completedReferences, st.underConstructionOrphans,
      st.diverged⟩
    [] st.underConstructionTopLevel.length b f0 rest hb htl hlen hfuel
  simp only [addLine, hf, he, hfeat, if_pos trivial, if_true, bufferLine, hids2, hpar2, hder2,
    ite_self, List.isEmpty_cons, List.isEmpty_nil, Bool.false_eq_true, eq_self_iff_true,
    and_true, true_and, and_self, false_and, and_false, if_false, List.foldl, bufferOneId,
    hby2, enforceBufferSizeLimit, List.nil_append]
  constructor
  · rw [resolveReferencesFrom_topLevel, resolveReferencesTo_topLevel]
    exact hE.1
  · rw [hE.2]
    simp only [List.nil_append]

/-- **C10.** First conjunct: for every parser constructed with a finite
`bufferSize` b ≥ 1 and every input line sequence, after each `addLine` call
(equivalently, after any prefix of the lines has been fed) the top-level
under-construction queue holds at most b features.  Second conjunct:
eviction runs before every insertion of a newly identified feature, even
when that feature has a `Parent` reference and is therefore never enqueued
as top-level: fed to a full queue, such a line still evicts and emits the
oldest queued feature and the queue shrinks to its tail. -/
theorem claim_C10_buffer_bound_and_eviction :
    (∀ (cbs : ParseCallbacks) (b : Nat) (ddr : Bool) (lines : List String),
      1 ≤ b →
      (runLines cbs (initialParserState (some b) ddr)
          lines).underConstructionTopLevel.length ≤ b) ∧
    (∀ (cbs : ParseCallbacks) (st : ParserState) (line : String)
       (t i2 : String) (b f0 : Nat) (rest : List Nat),
      st.fastaParser = none → st.eof = false → isFeatureLineStr line = true →
      featureLineIds (parseFeature line) = [i2] →
      featureLineParents (parseFeature line) = [t] →
      featureLineDerivesRaw (parseFeature line) = [] →
      st.bufferSize = some b →
      st.underConstructionTopLevel = f0 :: rest →
      rest.length + 1 = b →
      recGet st.underConstructionById i2 = none →
      (addLine cbs st line).state.underConstructionTopLevel = rest ∧
      (addLine cbs st line).emitted
        = (if cbs.featureCallback then
            [Emitted.feature ⟨st.lineArena ++ [⟨parseFeature line, [], []⟩],
              st.featArena ++ [[st.lineArena.length]]⟩ f0]
           else [])) :=
  ⟨fun cbs b ddr lines h1 =>
    (runLines_bound cbs b h1 lines (initialParserState (some b) ddr) rfl
      (Nat.zero_le b)).2,
   fun cbs st line t i2 b f0 rest hf he hfeat hids2 hpar2 hder2 hb htl hlen hby2 =>
    addLine_parented_evicts cbs st line t i2 b f0 rest hf he hfeat hids2 hpar2 hder2 hb
      htl hlen hby2⟩

/-- Witness for C10: a `bufferSize = 1` parser fed three distinct-id lines
stays within the bound, and a parented line fed to the full queue evicts. -/
theorem claim_C10_buffer_bound_and_eviction_witness :
    (runLines allCallbacks (initialParserState (some 1) false)
        ["a\t.\tgene\t1\t2\t.\t.\t.\tID=i1", "b\t.\tgene\t1\t2\t.\t.\t.\tID=i2",
         "c\t.\tgene\t1\t2\t.\t.\t.\tID=i3"]).underConstructionTopLevel.length ≤ 1 ∧
    ((addLine allCallbacks
        (addLine allCallbacks (initialParserState (some 1) false)
          "a\t.\tgene\t1\t2\t.\t.\t.\tID=i1").state
        "b\t.\tgene\t1\t2\t.\t.\t.\tID=i2;Parent=px").state.underConstructionTopLevel
      = [] ∧
     (addLine allCallbacks
        (addLine allCallbacks (initialParserState (some 1) false)
          "a\t.\tgene\t1\t2\t.\t.\t.\tID=i1").state
        "b\t.\tgene\t1\t2\t.\t.\t.\tID=i2;Parent=px").emitted
      = (if allCallbacks.featureCallback then
          [Emitted.feature
            ⟨(addLine allCallbacks (initialParserState (some 1) false)
                "a\t.\tgene\t1\t2\t.\t.\t.\tID=i1").state.lineArena
              ++ [⟨parseFeature "b\t.\tgene\t1\t2\t.\t.\t.\tID=i2;Parent=px", [], []⟩],
             (addLine allCallbacks (initialParserState (some 1) false)
                "a\t.\tgene\t1\t2\t.\t.\t.\tID=i1").state.featArena
              ++ [[(addLine allCallbacks (initialParserState (some 1) false)
                    "a\t.\tgene\t1\t2\t.\t.\t.\tID=i1").state.lineArena.length]]⟩ 0]
         else [])) :=
  ⟨claim_C10_buffer_bound_and_eviction.1 allCallbacks 1 false
    ["a\t.\tgene\t1\t2\t.\t.\t.\tID=i1", "b\t.\tgene\t1\t2\t.\t.\t.\tID=i2",
     "c\t.\tgene\t1\t2\t.\t.\t.\tID=i3"] (by decide),
   claim_C10_buffer_bound_and_eviction.2 allCallbacks
    (addLine allCallbacks (initialParserState (some 1) false)
      "a\t.\tgene\t1\t2\t.\t.\t.\tID=i1").state
    "b\t.\tgene\t1\t2\t.\t.\t.\tID=i2;Parent=px" "px" "i2" 1 0 []
    rfl rfl rfl rfl rfl rfl rfl rfl rfl rfl⟩

end GffJs
